import Mathlib

/-!
# Static runtime operator dispatch (torch/csrc/jit/runtime/static/ops.cpp)

A shallow embedding of the node classifier, the operator registry, the
out-of-place execution closures and the native dispatcher of `ops.cpp`,
followed by the properties established about them.

Conventions of the embedding

* An operation identifier is the qualified string of the node kind
  (`n->kind().toQualString()`); symbols and their qualified strings are in
  bijection, so comparing symbols is comparing strings.
* `int64_t` values are integers; the arithmetic that `ops.cpp` performs on
  them is reduced with `int64`, the two's complement wrap to 64 bits.
* A `double` is carried as its IEEE-754 bit pattern; no floating point
  arithmetic is performed by this file.
* A tensor handle (`at::Tensor`) is the index of its tensor object in the heap
  of the run context; mutating `out_t` through a reference is an update of the
  heap cell, assigning `p_node->Output(0) = ...` is an update of the slot.
* A closure is a state transformer that returns, next to the final state,
  either `ok` or the condition it failed with: a C++ exception leaves the
  writes made before it in place.
-/

namespace StaticRuntime

/-! ## Failure conditions -/

/-- Conditions with which the code of `ops.cpp` and its callees abort. -/
inductive Err where
  /-- a failed `DCHECK`, or a slot access outside the declared arity -/
  | invariantViolation
  /-- an `IValue` accessor applied to a value with another tag -/
  | typeMismatch
  /-- the check `self.dim() > 0` of narrow -/
  | zeroDim
  /-- the bounds check of narrow, naming start, length and dimension size -/
  | outOfRange (start length cur_size : Int)
  /-- a dimension outside the range that can be wrapped -/
  | indexError
  /-- the closure `TORCH_CHECK(0)` of an operation that is not covered -/
  | unimplemented
  /-- the debug-only shape check of stack -/
  | shapeMismatch
  /-- the length check of list unpack -/
  | lengthMismatch (expected found : Nat)
  /-- a failure raised inside the tensor math library -/
  | kernel (code : Nat)
  /-- behaviour the language leaves undefined (null or out-of-bounds access) -/
  | undefinedBehavior
  deriving DecidableEq, Repr

/-! ## Machine integers and doubles -/

/-- Two's complement wrap of an integer to the range of `int64_t`. -/
def int64 (x : Int) : Int :=
  (x + 9223372036854775808) % 18446744073709551616 - 9223372036854775808

/-- The integer is representable as an `int64_t`. -/
def isInt64 (x : Int) : Prop :=
  -9223372036854775808 ≤ x ∧ x < 9223372036854775808

instance (x : Int) : Decidable (isInt64 x) := by
  unfold isInt64; exact inferInstance

/-- A `double`, carried as its IEEE-754 binary64 bit pattern. -/
structure Double where
  bits : Nat
  deriving DecidableEq, Repr

/-- The literal `0` converted to double. -/
def Double.zero : Double := ⟨0⟩
/-- The value `std::numeric_limits<double>::infinity()`. -/
def Double.infinity : Double := ⟨0x7FF0000000000000⟩
/-- The value `-std::numeric_limits<double>::infinity()`. -/
def Double.negInfinity : Double := ⟨0xFFF0000000000000⟩
/-- The literal `-1.0`. -/
def Double.negOne : Double := ⟨0xBFF0000000000000⟩

/-- An `at::Scalar`: a double or an integer. -/
inductive Scalar where
  | ofDouble (d : Double)
  | ofInt (i : Int)
  deriving DecidableEq, Repr

/-! ## Values, tensors, graph nodes -/

/-- Modelled from the spec: the tensor object (`c10::TensorImpl`) is declared
outside `ops.cpp`. It carries the logical shape and strides, the identity of
the storage it views, the offset into it, the element type tag and the
elements as the tensor math library left them. -/
structure TensorImpl where
  sizes : List Int
  strides : List Int
  storage : Nat
  storage_offset : Int
  dtype : Nat
  elems : List Int
  deriving DecidableEq, Repr

/-- Modelled from the spec: the runtime value of a slot (`c10::IValue`) is
declared outside `ops.cpp`. It is a closed tagged variant: empty, a tensor
handle, a double, an integer, a boolean, a scalar-type tag, a memory-layout
tag, a sequence of values, or a tuple (with the name of its type when the
tuple type is named). -/
inductive IValue where
  | none
  | tensor (impl : Nat)
  | double (d : Double)
  | int (i : Int)
  | bool (b : Bool)
  | scalarType (t : Nat)
  | memoryFormat (m : Nat)
  | list (elems : List IValue)
  | tuple (elems : List IValue) (name : Option String)

/-- Static type of a graph value, as far as the closures inspect it. -/
inductive JitType where
  | tuple (name : Option String)
  | list
  | other
  deriving DecidableEq, Repr

/-- A graph value: `toIValue(v)` is its constant when it is the output of a
constant node, and `type()` its static type. -/
structure Value where
  constant : Option IValue
  type : JitType

/-- A graph node: identifier, ordered inputs, declared outputs. -/
structure Node where
  kind : String
  inputs : List Value
  outputs : List Value

/-- Build flavour: `debug` is true when `NDEBUG` is not defined, so that
`DCHECK`, `DCHECK_EQ` and the `#ifndef NDEBUG` blocks are compiled in. -/
structure Build where
  debug : Bool
  deriving DecidableEq, Repr

/-! ## Classifier: the allow-list of native nodes -/

/-- The set `native_nodes` of `canRunNatively`. -/
def native_nodes : List String :=
  ["aten::flatten",
   "aten::narrow",
   "aten::reshape",
   "aten::slice",
   "aten::transpose",
   "aten::to",
   "prim::ListConstruct",
   "prim::ListUnpack",
   "prim::TupleConstruct"]

/-- The function `canRunNatively` of `ops.cpp`. -/
def canRunNatively (n : Node) : Bool :=
  let str := n.kind
  if !(native_nodes.contains str) then
    false
  else if str == "aten::to" then
    n.inputs.length == 5
  else
    true

/-! ## The tensor math library, as far as `ops.cpp` calls into it -/

/-- An invocation of an out-variant numeric kernel, with the state of every
tensor argument at the moment of the call (`out` is the destination). -/
inductive KernelCall where
  | add_impl (in0 in1 : TensorImpl) (alpha : Scalar) (out : TensorImpl)
  | mul_out (out in0 in1 : TensorImpl)
  | addmm_cpu_out (out in0 in1 in2 : TensorImpl) (beta alpha : Scalar)
  | clamp_out (out in0 : TensorImpl) (min max : Scalar)
  | bmm_out_cpu (out in0 in1 : TensorImpl)
  | nan_to_num_out (out in0 : TensorImpl) (nan posinf neginf : Double)
  | _cat_out_cpu (out : TensorImpl) (tensors : List TensorImpl) (dim : Int)
  | tanh_out (out in0 : TensorImpl)
  | sigmoid_out (out in0 : TensorImpl)
  | leaky_relu_out (out in0 : TensorImpl) (negval : Scalar)
  | threshold_out (out in0 : TensorImpl) (threshold value : Scalar)
  | logit_out (out in0 : TensorImpl) (eps : Double)
  | copy_ (out in0 : TensorImpl) (non_blocking : Bool)
  deriving DecidableEq, Repr

/-- What an out-variant kernel leaves behind: the state of the destination
tensor object, and the code of the failure when it threw. -/
structure KernelResult where
  out : TensorImpl
  failed : Option Nat
  deriving DecidableEq, Repr

/-- An invocation of a library function that returns a new tensor handle
(a view of `self`, or a converted tensor). -/
inductive ViewCall where
  | transpose (self : TensorImpl) (dim0 dim1 : Int)
  | flatten (self : TensorImpl) (start_dim end_dim : Int)
  | permute (self : TensorImpl) (dims : List Int)
  | reshape (self : TensorImpl) (shape : List Int)
  | slice (self : TensorImpl) (dim start stop step : Int)
  | unsqueeze (self : TensorImpl) (dim : Int)
  | to (self : TensorImpl) (dtype : Nat) (non_blocking copy : Bool)
      (memory_format : Option Nat)
  deriving DecidableEq, Repr

/-- What `structured_add_out::meta` passes to `set_output`. -/
structure MetaOutput where
  sizes : List Int
  strides : List Int
  memory_format_opt : Option Nat
  deriving DecidableEq, Repr

/-- The tensor math library and the helpers of the runtime that `ops.cpp`
calls but does not define. They are parameters of the embedding: every
property below holds for every library. -/
structure ATen where
  /-- the numeric kernels (`at::native::*_out`, `copy_`, `static_add::impl`) -/
  run : KernelCall → KernelResult
  /-- the view and conversion functions (`at::native::transpose`, ...) -/
  view : ViewCall → Except Nat TensorImpl
  /-- the function `create_empty_from` declared in `ops.h` -/
  create_empty_from : TensorImpl → TensorImpl
  /-- the accessor `Tensor::item<int64_t>` -/
  item : TensorImpl → Except Nat Int
  /-- the shape computation `structured_add_out::meta` -/
  add_meta : TensorImpl → TensorImpl → Scalar → Except Nat MetaOutput
  /-- the method `TensorImpl::empty_tensor_restride` -/
  empty_tensor_restride : TensorImpl → Nat → TensorImpl

/-- Build flavour, library, and the two flags that the absent macro
`REGISTER_OPERATOR_FUNCTOR` declares for the functor of each identifier. -/
structure Env where
  build : Build
  lib : ATen
  reuse_inp : String → Bool
  reuse_out : String → Bool

/-! ## Run context and the closure monad -/

/-- The run context of one node (`ProcessedNode`): the node, its input and
output slots, together with the tensor objects reachable from the slots
(`heap`, indexed by handle) and the record of the numeric kernel invocations
made so far (`calls`, most recent last). -/
structure ProcessedNode where
  node : Node
  inputs : List IValue
  outputs : List IValue
  heap : List TensorImpl
  calls : List KernelCall

/-- A computation over a run context that may abort: it returns the final
context together with its result or the condition it aborted with. -/
def SR (α : Type) : Type := ProcessedNode → Except Err α × ProcessedNode

/-- Return without touching the context. -/
def SR.pure {α : Type} (a : α) : SR α := fun s => (.ok a, s)

/-- Sequencing: a failure of the first computation ends the run and keeps the
context it left. -/
def SR.bind {α β : Type} (m : SR α) (f : α → SR β) : SR β := fun s =>
  match m s with
  | (.ok a, s1) => f a s1
  | (.error e, s1) => (.error e, s1)

/-- Abort with a condition. -/
def SR.fail {α : Type} (e : Err) : SR α := fun s => (.error e, s)

instance : Monad SR where
  pure := SR.pure
  bind := SR.bind

/-- An execution closure, `std::function<void(ProcessedNode*)>`. -/
abbrev SROperator : Type := SR Unit

/-- Lift a pure fallible computation. -/
def SR.ofExcept {α : Type} : Except Err α → SR α
  | .ok a => SR.pure a
  | .error e => SR.fail e

/-- Lift a library result, tagging its failure as a kernel failure. -/
def SR.ofLib {α : Type} : Except Nat α → SR α
  | .ok a => SR.pure a
  | .error c => SR.fail (.kernel c)

/-- The macro `TORCH_CHECK(cond, ...)`: active in every build. -/
def TORCH_CHECK (cond : Bool) (e : Err) : SR Unit :=
  if cond then SR.pure () else SR.fail e

/-- The macro `DCHECK(cond)`: compiled out unless the build is a debug build. -/
def DCHECK (b : Build) (cond : Bool) : SR Unit :=
  if b.debug && !cond then SR.fail .invariantViolation else SR.pure ()

/-- The current context (for `p_node->inputs().size()`, `p_node->get_node()`). -/
def SR.get : SR ProcessedNode := fun s => (.ok s, s)

/-- Modelled from the spec: `ProcessedNode::Input` is declared outside
`ops.cpp`; the access is bounds-checked against the declared arity and an
access outside it is an invariant violation. -/
def Input (i : Nat) : SR IValue := fun s =>
  match s.inputs[i]? with
  | some v => (.ok v, s)
  | Option.none => (.error .invariantViolation, s)

/-- Modelled from the spec: reading the slot `ProcessedNode::Output(i)`,
bounds-checked like `Input`. -/
def Output (i : Nat) : SR IValue := fun s =>
  match s.outputs[i]? with
  | some v => (.ok v, s)
  | Option.none => (.error .invariantViolation, s)

/-- The assignment `p_node->Output(i) = v`. -/
def setOutput (i : Nat) (v : IValue) : SR Unit := fun s =>
  if i < s.outputs.length then
    (.ok (), { s with outputs := s.outputs.set i v })
  else (.error .invariantViolation, s)

/-- Read the tensor object behind a handle. -/
def deref (t : Nat) : SR TensorImpl := fun s =>
  match s.heap[t]? with
  | some impl => (.ok impl, s)
  | Option.none => (.error .undefinedBehavior, s)

/-- Overwrite the tensor object behind a handle (mutation through `Tensor&`). -/
def store (t : Nat) (impl : TensorImpl) : SR Unit := fun s =>
  (.ok (), { s with heap := s.heap.set t impl })

/-- Create a tensor object and return the handle to it. -/
def alloc (impl : TensorImpl) : SR Nat := fun s =>
  (.ok s.heap.length, { s with heap := s.heap ++ [impl] })

/-- Invoke a numeric kernel on the destination `out`: the invocation is
recorded, the destination object takes the state the kernel leaves, and a
failure of the kernel propagates. -/
def invoke (lib : ATen) (out : Nat) (c : KernelCall) : SR Unit := fun s =>
  let r := lib.run c
  let s1 := { s with heap := s.heap.set out r.out, calls := s.calls ++ [c] }
  match r.failed with
  | Option.none => (.ok (), s1)
  | some code => (.error (.kernel code), s1)

/-- Invoke a library function that returns a new tensor handle. -/
def newView (lib : ATen) (c : ViewCall) : SR IValue := do
  let impl ← SR.ofLib (lib.view c)
  let h ← alloc impl
  pure (.tensor h)

/-! ## Value accessors and tensor helpers -/

/-- Modelled from the spec: the test `IValue::isNone` is declared outside
`ops.cpp`; true on the empty value only. -/
def IValue.isNone : IValue → Bool
  | .none => true
  | _ => false

/-- Modelled from the spec: the test `IValue::isScalar` is declared outside
`ops.cpp`; true on a double or an integer. -/
def IValue.isScalar : IValue → Bool
  | .double _ => true
  | .int _ => true
  | _ => false

/-- Modelled from the spec: the accessor `IValue::toTensor` is declared outside
`ops.cpp`. Typed extraction: it fails with a type mismatch when the tag of the
value disagrees. -/
def IValue.toTensor : IValue → SR Nat
  | .tensor h => SR.pure h
  | _ => SR.fail .typeMismatch

/-- Modelled from the spec: the accessor `IValue::toInt` is declared outside
`ops.cpp`. Typed extraction: it fails with a type mismatch when the tag of the
value disagrees. -/
def IValue.toInt : IValue → SR Int
  | .int i => SR.pure i
  | _ => SR.fail .typeMismatch

/-- Modelled from the spec: the accessor `IValue::toDouble` is declared outside
`ops.cpp`. Typed extraction: it fails with a type mismatch when the tag of the
value disagrees. -/
def IValue.toDouble : IValue → SR Double
  | .double d => SR.pure d
  | _ => SR.fail .typeMismatch

/-- Modelled from the spec: the accessor `IValue::toBool` is declared outside
`ops.cpp`. Typed extraction: it fails with a type mismatch when the tag of the
value disagrees. -/
def IValue.toBool : IValue → SR Bool
  | .bool b => SR.pure b
  | _ => SR.fail .typeMismatch

/-- Modelled from the spec: the accessor `IValue::toScalar` is declared
outside `ops.cpp`. Typed extraction of a double or an integer as a scalar,
failing with a type mismatch otherwise; a pure function, since it is also used
when a closure is generated. -/
def IValue.asScalar : IValue → Except Err Scalar
  | .double d => .ok (.ofDouble d)
  | .int i => .ok (.ofInt i)
  | _ => .error .typeMismatch

/-- The accessor `IValue::toScalar` inside a closure. -/
def IValue.toScalar (v : IValue) : SR Scalar := SR.ofExcept v.asScalar

/-- Modelled from the spec: the accessor `IValue::toScalarType` is declared outside
`ops.cpp`. Typed extraction: it fails with a type mismatch when the tag of the
value disagrees. -/
def IValue.toScalarType : IValue → SR Nat
  | .scalarType t => SR.pure t
  | _ => SR.fail .typeMismatch

/-- Modelled from the spec: the accessor `IValue::toMemoryFormat` is declared outside
`ops.cpp`. Typed extraction: it fails with a type mismatch when the tag of the
value disagrees. -/
def IValue.toMemoryFormat : IValue → SR Nat
  | .memoryFormat m => SR.pure m
  | _ => SR.fail .typeMismatch

/-- Modelled from the spec: the accessor `IValue::toList` is declared outside
`ops.cpp`. Typed extraction: it fails with a type mismatch when the tag of the
value disagrees. -/
def IValue.toList : IValue → SR (List IValue)
  | .list elems => SR.pure elems
  | _ => SR.fail .typeMismatch

/-- Extraction of every element of a list with the accessor `get`. -/
def extractAll {α : Type} (get : IValue → SR α) : List IValue → SR (List α)
  | [] => SR.pure []
  | v :: rest => do
      let a ← get v
      let as ← extractAll get rest
      pure (a :: as)

/-- Modelled from the spec: the accessor `IValue::toTensorVector` is declared
outside `ops.cpp`. Typed extraction of a sequence whose elements are all
tensors. -/
def IValue.toTensorVector (v : IValue) : SR (List Nat) := do
  let elems ← v.toList
  extractAll IValue.toTensor elems

/-- Modelled from the spec: the accessor `IValue::toIntVector` is declared
outside `ops.cpp`. Typed extraction of a sequence whose elements are all
integers. -/
def IValue.toIntVector (v : IValue) : SR (List Int) := do
  let elems ← v.toList
  extractAll IValue.toInt elems

/-- The unchecked subscript `v[i]` of a vector: out of bounds is undefined
behaviour. -/
def vecAt {α : Type} (xs : List α) (i : Nat) : SR α :=
  match xs[i]? with
  | some a => SR.pure a
  | Option.none => SR.fail .undefinedBehavior

/-- The state of every tensor of a vector of handles. -/
def derefAll : List Nat → SR (List TensorImpl)
  | [] => SR.pure []
  | h :: rest => do
      let t ← deref h
      let ts ← derefAll rest
      pure (t :: ts)

/-- Modelled from the spec: `Tensor::dim` is declared outside `ops.cpp`; the
number of dimensions of the logical shape. -/
def TensorImpl.dim (t : TensorImpl) : Int := t.sizes.length

/-- Modelled from the spec: `at::maybe_wrap_dim` is defined outside
`ops.cpp`. Standard negative-indexing semantics: an offset in the range
`[-size, size)` is wrapped by `offset = size + offset` when it is negative;
outside that range the wrap is not defined and the helper fails. -/
def maybe_wrap_dim (dim dim_post_expr : Int) : Except Err Int :=
  if -dim_post_expr ≤ dim ∧ dim < dim_post_expr then
    .ok (if dim < 0 then dim + dim_post_expr else dim)
  else .error .indexError

/-- Modelled from the spec: `Tensor::size(dim)` is declared outside `ops.cpp`.
The size of the dimension `dim`, which may be given negatively with the
semantics of `maybe_wrap_dim`. -/
def TensorImpl.size (t : TensorImpl) (dim : Int) : Except Err Int :=
  match maybe_wrap_dim dim t.dim with
  | .error e => .error e
  | .ok d =>
    match t.sizes[d.toNat]? with
    | some sz => .ok sz
    | Option.none => .error .undefinedBehavior

/-- Strides of a contiguous tensor of the given shape. -/
def contiguousStrides : List Int → List Int
  | [] => []
  | _ :: rest =>
      (rest.foldr (fun sz acc => acc * max sz 1) 1) :: contiguousStrides rest

/-- Modelled from the spec: `Tensor::resize_` / `at::native::resize_` are
defined outside `ops.cpp`. The storage of the tensor is kept and its logical
shape is reset to `sizes` (with contiguous strides). -/
def TensorImpl.resize_ (t : TensorImpl) (sizes : List Int) : TensorImpl :=
  { t with sizes := sizes, strides := contiguousStrides sizes }

/-- The call `out_t.resize_(sizes)` on a handle. -/
def resize_ (out_t : Nat) (sizes : List Int) : SR Unit := do
  let t ← deref out_t
  store out_t (t.resize_ sizes)

/-- The call `output_.as_strided_(sizes, strides)` on a handle. -/
def as_strided_ (out_t : Nat) (sizes strides : List Int) : SR Unit := do
  let t ← deref out_t
  store out_t { t with sizes := sizes, strides := strides }

/-- The call `output_.unsafeGetTensorImpl()->empty_tensor_restride(fmt)`. -/
def empty_tensor_restride (lib : ATen) (out_t : Nat) (fmt : Nat) : SR Unit := do
  let t ← deref out_t
  store out_t (lib.empty_tensor_restride t fmt)

/-- Modelled from the spec: `create_empty_from` is declared in `ops.h`, outside
`ops.cpp`. It allocates a new output value typed compatibly with the
designated input: a new tensor object, and the handle to it. -/
def create_empty_from (lib : ATen) (t : Nat) : SR IValue := do
  let impl ← deref t
  let h ← alloc (lib.create_empty_from impl)
  pure (.tensor h)

/-- The macro `TORCH_INTERNAL_ASSERT(cond)`: active in every build. -/
def TORCH_INTERNAL_ASSERT (cond : Bool) : SR Unit :=
  TORCH_CHECK cond .invariantViolation

/-- The macro `TORCH_INTERNAL_ASSERT_DEBUG_ONLY(cond)`. -/
def TORCH_INTERNAL_ASSERT_DEBUG_ONLY (b : Build) (cond : Bool) : SR Unit :=
  DCHECK b cond

/-! ## Out-of-place closures -/

/-- The method `static_add::set_output`. -/
def static_add.set_output (env : Env) (output_ : Nat) (output_idx : Int)
    (sizes strides : List Int) (memory_format_opt : Option Nat) : SR Unit := do
  TORCH_INTERNAL_ASSERT_DEBUG_ONLY env.build (output_idx == 0)
  resize_ output_ sizes
  if !strides.isEmpty then
    TORCH_INTERNAL_ASSERT (!memory_format_opt.isSome)
    as_strided_ output_ sizes strides
  else
    match memory_format_opt with
    | some fmt => empty_tensor_restride env.lib output_ fmt
    | Option.none => pure ()

/-- The closure registered for `aten::add`. -/
def aten_add (env : Env) (_n : Node) : Except Err SROperator := .ok do
  let in0_t ← (← Input 0).toTensor
  let in1_t ← (← Input 1).toTensor
  let in2_s ← (← Input 2).toScalar
  if (← Output 0).isNone then
    let fresh ← create_empty_from env.lib in0_t
    setOutput 0 fresh
  let out_t ← (← Output 0).toTensor
  -- op.meta(in0_t, in1_t, in2_s)
  let a ← deref in0_t
  let b ← deref in1_t
  let m ← SR.ofLib (env.lib.add_meta a b in2_s)
  static_add.set_output env out_t 0 m.sizes m.strides m.memory_format_opt
  -- op.impl(in0_t, in1_t, in2_s, out_t)
  let a ← deref in0_t
  let b ← deref in1_t
  let o ← deref out_t
  invoke env.lib out_t (.add_impl a b in2_s o)

/-- The closure registered for `aten::mul`. -/
def aten_mul (env : Env) (_n : Node) : Except Err SROperator := .ok do
  let in0_t ← (← Input 0).toTensor
  let in1_t ← (← Input 1).toTensor
  if (← Output 0).isNone then
    let fresh ← create_empty_from env.lib in0_t
    setOutput 0 fresh
  let out_t ← (← Output 0).toTensor
  resize_ out_t [0]
  let o ← deref out_t
  let a ← deref in0_t
  let b ← deref in1_t
  invoke env.lib out_t (.mul_out o a b)

/-- The closure registered for `aten::addmm`. -/
def aten_addmm (env : Env) (_n : Node) : Except Err SROperator := .ok do
  let in0_t ← (← Input 0).toTensor
  let in1_t ← (← Input 1).toTensor
  let in2_t ← (← Input 2).toTensor
  let in3_s ← (← Input 3).toScalar
  let in4_s ← (← Input 4).toScalar
  if (← Output 0).isNone then
    let fresh ← create_empty_from env.lib in0_t
    setOutput 0 fresh
  let out_t ← (← Output 0).toTensor
  resize_ out_t [0]
  let o ← deref out_t
  let a ← deref in0_t
  let b ← deref in1_t
  let c ← deref in2_t
  invoke env.lib out_t (.addmm_cpu_out o a b c in3_s in4_s)

/-- The closure registered for `aten::clamp`. -/
def aten_clamp (env : Env) (_n : Node) : Except Err SROperator := .ok do
  let in0_t ← (← Input 0).toTensor
  let in1_s ← (← Input 1).toScalar
  let in2_s ← (← Input 2).toScalar
  if (← Output 0).isNone then
    let fresh ← create_empty_from env.lib in0_t
    setOutput 0 fresh
  let out_t ← (← Output 0).toTensor
  resize_ out_t [0]
  let o ← deref out_t
  let a ← deref in0_t
  invoke env.lib out_t (.clamp_out o a in1_s in2_s)

/-- The closure registered for `aten::bmm`. -/
def aten_bmm (env : Env) (_n : Node) : Except Err SROperator := .ok do
  let in0_t ← (← Input 0).toTensor
  let in1_t ← (← Input 1).toTensor
  if (← Output 0).isNone then
    let fresh ← create_empty_from env.lib in0_t
    setOutput 0 fresh
  let out_t ← (← Output 0).toTensor
  resize_ out_t [0]
  let o ← deref out_t
  let a ← deref in0_t
  let b ← deref in1_t
  invoke env.lib out_t (.bmm_out_cpu o a b)

/-- The closure registered for `aten::nan_to_num`. -/
def aten_nan_to_num (env : Env) (_n : Node) : Except Err SROperator := .ok do
  let input_size := (← SR.get).inputs.length
  let in0_t ← (← Input 0).toTensor
  let in1_d ← (if input_size > 1 then (do (← Input 1).toDouble)
    else pure Double.zero)
  let in2_d ← (if input_size > 2 then (do (← Input 2).toDouble)
    else pure Double.infinity)
  let in3_d ← (if input_size > 3 then (do (← Input 3).toDouble)
    else pure Double.negInfinity)
  if (← Output 0).isNone then
    let fresh ← create_empty_from env.lib in0_t
    setOutput 0 fresh
  let out_t ← (← Output 0).toTensor
  resize_ out_t [0]
  let o ← deref out_t
  let a ← deref in0_t
  invoke env.lib out_t (.nan_to_num_out o a in1_d in2_d in3_d)

/-- The closure registered for `aten::cat`. -/
def aten_cat (env : Env) (_n : Node) : Except Err SROperator := .ok do
  let in0_tl ← (← Input 0).toTensorVector
  let in1_i ← (← Input 1).toInt
  if (← Output 0).isNone then
    let first ← vecAt in0_tl 0
    let fresh ← create_empty_from env.lib first
    setOutput 0 fresh
  let out_t ← (← Output 0).toTensor
  resize_ out_t [0]
  let o ← deref out_t
  let ts ← derefAll in0_tl
  invoke env.lib out_t (._cat_out_cpu o ts in1_i)

/-- The closure registered for `aten::tanh`. -/
def aten_tanh (env : Env) (_n : Node) : Except Err SROperator := .ok do
  let in0_t ← (← Input 0).toTensor
  if (← Output 0).isNone then
    let fresh ← create_empty_from env.lib in0_t
    setOutput 0 fresh
  let out_t ← (← Output 0).toTensor
  resize_ out_t [0]
  let o ← deref out_t
  let a ← deref in0_t
  invoke env.lib out_t (.tanh_out o a)

/-- The debug-only loop of `aten_stack` that compares the shape of every
entry after the first with the shape of entry 0. -/
def checkEntryShapes (entry_shape : List Int) : List Nat → SR Unit
  | [] => SR.pure ()
  | h :: rest => do
      let t ← deref h
      TORCH_CHECK (t.sizes == entry_shape) .shapeMismatch
      checkEntryShapes entry_shape rest

/-- The loop `inputs[i] = inputs[i].unsqueeze(dim)` of `aten_stack`. -/
def unsqueezeAll (lib : ATen) (dim : Int) : List Nat → SR (List Nat)
  | [] => SR.pure []
  | h :: rest => do
      let t ← deref h
      let v ← (newView lib (.unsqueeze t dim))
      let vh ← v.toTensor
      let vs ← unsqueezeAll lib dim rest
      pure (vh :: vs)

/-- The function `aten_stack`, registered for `aten::stack`. -/
def aten_stack (env : Env) (_n : Node) : Except Err SROperator := .ok do
  let inputs ← (← Input 0).toTensorVector
  let dim ← (← Input 1).toInt
  if (← Output 0).isNone then
    let first ← vecAt inputs 0
    let fresh ← create_empty_from env.lib first
    setOutput 0 fresh
  if env.build.debug then
    let first ← vecAt inputs 0
    let entry_shape := (← deref first).sizes
    checkEntryShapes entry_shape (inputs.drop 1)
  let inputs ← unsqueezeAll env.lib dim inputs
  let out_t ← (← Output 0).toTensor
  resize_ out_t [0]
  let o ← deref out_t
  let ts ← derefAll inputs
  invoke env.lib out_t (._cat_out_cpu o ts dim)

/-- The closure registered for `aten::sigmoid`. -/
def aten_sigmoid (env : Env) (_n : Node) : Except Err SROperator := .ok do
  let in0_t ← (← Input 0).toTensor
  if (← Output 0).isNone then
    let fresh ← create_empty_from env.lib in0_t
    setOutput 0 fresh
  let out_t ← (← Output 0).toTensor
  resize_ out_t [0]
  let o ← deref out_t
  let a ← deref in0_t
  invoke env.lib out_t (.sigmoid_out o a)

/-- The generator registered for `aten::leaky_relu`: when the second input of
the node is a constant, the scalar is bound at generation time. -/
def aten_leaky_relu (env : Env) (n : Node) : Except Err SROperator :=
  match n.inputs[1]? with
  | Option.none => .error .undefinedBehavior
  | some v =>
    match v.constant with
    | some in1 =>
      match in1.asScalar with
      | .error e => .error e
      | .ok in1_s => .ok do
          let in0_t ← (← Input 0).toTensor
          if (← Output 0).isNone then
            let fresh ← create_empty_from env.lib in0_t
            setOutput 0 fresh
          let out_t ← (← Output 0).toTensor
          let o ← deref out_t
          let a ← deref in0_t
          invoke env.lib out_t (.leaky_relu_out o a in1_s)
    | Option.none => .ok do
        let in0_t ← (← Input 0).toTensor
        let in1_s ← (← Input 1).toScalar
        if (← Output 0).isNone then
          let fresh ← create_empty_from env.lib in0_t
          setOutput 0 fresh
        let out_t ← (← Output 0).toTensor
        let o ← deref out_t
        let a ← deref in0_t
        invoke env.lib out_t (.leaky_relu_out o a in1_s)

/-- The closure registered for `aten::relu`. -/
def aten_relu (env : Env) (_n : Node) : Except Err SROperator := .ok do
  let in0_t ← (← Input 0).toTensor
  if (← Output 0).isNone then
    let fresh ← create_empty_from env.lib in0_t
    setOutput 0 fresh
  let out_t ← (← Output 0).toTensor
  resize_ out_t [0]
  let o ← deref out_t
  let a ← deref in0_t
  invoke env.lib out_t (.threshold_out o a (.ofInt 0) (.ofInt 0))

/-- The closure registered for `aten::logit`. -/
def aten_logit (env : Env) (_n : Node) : Except Err SROperator := .ok do
  let in0_t ← (← Input 0).toTensor
  let input_size := (← SR.get).inputs.length
  let in1_d ← (if input_size > 1 then (do (← Input 1).toDouble)
    else pure Double.negOne)
  if (← Output 0).isNone then
    let fresh ← create_empty_from env.lib in0_t
    setOutput 0 fresh
  let out_t ← (← Output 0).toTensor
  resize_ out_t [0]
  let o ← deref out_t
  let a ← deref in0_t
  invoke env.lib out_t (.logit_out o a in1_d)

/-- The closure registered for `aten::clone`. -/
def aten_clone (env : Env) (_n : Node) : Except Err SROperator := .ok do
  let in0_t ← (← Input 0).toTensor
  if (← Output 0).isNone then
    let fresh ← create_empty_from env.lib in0_t
    setOutput 0 fresh
  let out_t ← (← Output 0).toTensor
  -- at::native::resize_as_(out_t, in0_t, c10::nullopt)
  let a ← deref in0_t
  resize_ out_t a.sizes
  let o ← deref out_t
  let a ← deref in0_t
  invoke env.lib out_t (.copy_ o a false)

/-! ## Operator registry -/

/-- The descriptor `SROperatorFunctor`. -/
structure SROperatorFunctor where
  Generate : Node → Except Err SROperator
  CanReuseInput : Bool
  CanReuseOutput : Bool

/-- The macro `REGISTER_OPERATOR_FUNCTOR(name, id, fn)`: the registry entry
for `name`, with the generator `fn` and the flags the macro declares. -/
def REGISTER_OPERATOR_FUNCTOR (env : Env) (name : String)
    (fn : Node → Except Err SROperator) : String × SROperatorFunctor :=
  (name, { Generate := fn, CanReuseInput := env.reuse_inp name,
           CanReuseOutput := env.reuse_out name })

/-- The registry `SROperatorRegistry` with the registrations of `ops.cpp`, in
the order of the file. -/
def SROperatorRegistry (env : Env) : List (String × SROperatorFunctor) :=
  [REGISTER_OPERATOR_FUNCTOR env "aten::add" (aten_add env),
   REGISTER_OPERATOR_FUNCTOR env "aten::mul" (aten_mul env),
   REGISTER_OPERATOR_FUNCTOR env "aten::addmm" (aten_addmm env),
   REGISTER_OPERATOR_FUNCTOR env "aten::clamp" (aten_clamp env),
   REGISTER_OPERATOR_FUNCTOR env "aten::bmm" (aten_bmm env),
   REGISTER_OPERATOR_FUNCTOR env "aten::nan_to_num" (aten_nan_to_num env),
   REGISTER_OPERATOR_FUNCTOR env "aten::cat" (aten_cat env),
   REGISTER_OPERATOR_FUNCTOR env "aten::tanh" (aten_tanh env),
   REGISTER_OPERATOR_FUNCTOR env "aten::stack" (aten_stack env),
   REGISTER_OPERATOR_FUNCTOR env "aten::sigmoid" (aten_sigmoid env),
   REGISTER_OPERATOR_FUNCTOR env "aten::leaky_relu" (aten_leaky_relu env),
   REGISTER_OPERATOR_FUNCTOR env "aten::relu" (aten_relu env),
   REGISTER_OPERATOR_FUNCTOR env "aten::logit" (aten_logit env),
   REGISTER_OPERATOR_FUNCTOR env "aten::clone" (aten_clone env)]

/-- The lookup `SROperatorRegistry()->Create(name)`: the functor registered
for the name, or a null pointer. -/
def Registry.Create (env : Env) (name : String) : Option SROperatorFunctor :=
  (SROperatorRegistry env).lookup name

/-- The test `SROperatorRegistry()->Has(name)`. -/
def Registry.Has (env : Env) (name : String) : Bool :=
  (Registry.Create env name).isSome

/-- The function `canRunOutOfPlace` of `ops.cpp`. -/
def canRunOutOfPlace (env : Env) (n : Node) : Bool :=
  let op_name := n.kind
  Registry.Has env op_name

/-- The check `DCHECK(cond)` in a function that returns a value. -/
def DCHECK_pure (b : Build) (cond : Bool) : Except Err Unit :=
  if b.debug && !cond then .error .invariantViolation else .ok ()

/-- The function `canReuseInputs` of `ops.cpp`. Calling a method through the
null pointer that `Create` returns for an unregistered name is undefined
behaviour. -/
def canReuseInputs (env : Env) (n : Node) : Except Err Bool := do
  let op_name := n.kind
  DCHECK_pure env.build (Registry.Has env op_name)
  match Registry.Create env op_name with
  | some f => pure f.CanReuseInput
  | Option.none => throw .undefinedBehavior

/-- The function `canReuseOutputs` of `ops.cpp`. -/
def canReuseOutputs (env : Env) (n : Node) : Except Err Bool := do
  let op_name := n.kind
  DCHECK_pure env.build (Registry.Has env op_name)
  match Registry.Create env op_name with
  | some f => pure f.CanReuseOutput
  | Option.none => throw .undefinedBehavior

/-- The function `getOutOfPlaceOperation` of `ops.cpp`. -/
def getOutOfPlaceOperation (env : Env) (n : Node) : Except Err SROperator :=
  let op_name := n.kind
  if Registry.Has env op_name then
    match Registry.Create env op_name with
    | some f => f.Generate n
    | Option.none => .error .undefinedBehavior
  else
    .ok (TORCH_CHECK false .unimplemented)

/-! ## Native closures -/

/-- The loop `stack.emplace_back(p_node->Input(i))` from index `i`, for the
given number of remaining iterations. -/
def pushInputs (i : Nat) : Nat → SR (List IValue)
  | 0 => SR.pure []
  | k + 1 => do
      let v ← Input i
      let rest ← pushInputs (i + 1) k
      pure (v :: rest)

/-- The block "prepare inputs" of the container closures: a stack holding
`p_node->Input(i)` for every `i < p_node->inputs().size()`. -/
def prepareInputs : SR (List IValue) := do
  let size := (← SR.get).inputs.length
  pushInputs 0 size

/-- Modelled from the spec: `Node::output()` is declared outside `ops.cpp`; the
single output of the node, an invariant violation when the node does not have
exactly one. -/
def Node.output (n : Node) : SR Value :=
  match n.outputs with
  | [v] => SR.pure v
  | _ => SR.fail .invariantViolation

/-- Modelled from the spec: `tupleConstruct` is defined in
`vararg_functions.cpp`, outside `ops.cpp`. The last `num_inputs` values of
the stack are moved, in order, into a single tuple that replaces them. -/
def tupleConstruct (stack : List IValue) (num_inputs : Nat) : SR (List IValue) :=
  if num_inputs ≤ stack.length then
    SR.pure (stack.take (stack.length - num_inputs) ++
      [.tuple (stack.drop (stack.length - num_inputs)) Option.none])
  else SR.fail .undefinedBehavior

/-- Modelled from the spec: `namedTupleConstruct` is defined in
`vararg_functions.cpp`, outside `ops.cpp`. As `tupleConstruct`, and the
tuple carries its named type, so that the association of field names with
positions is preserved. -/
def namedTupleConstruct (stack : List IValue) (name : Option String)
    (num_inputs : Nat) : SR (List IValue) :=
  if num_inputs ≤ stack.length then
    SR.pure (stack.take (stack.length - num_inputs) ++
      [.tuple (stack.drop (stack.length - num_inputs)) name])
  else SR.fail .undefinedBehavior

/-- Modelled from the spec: `listConstruct` is defined in
`vararg_functions.cpp`, outside `ops.cpp`. The last `num_inputs` values of
the stack are moved, in order, into a single list that replaces them. -/
def listConstruct (stack : List IValue) (num_inputs : Nat) : SR (List IValue) :=
  if num_inputs ≤ stack.length then
    SR.pure (stack.take (stack.length - num_inputs) ++
      [.list (stack.drop (stack.length - num_inputs))])
  else SR.fail .undefinedBehavior

/-- Modelled from the spec: `listUnpack` is defined in
`vararg_functions.cpp`, outside `ops.cpp`. The sequence on top of the stack is
popped; its length must equal `num_outputs` (the call fails otherwise); its
elements are pushed in order. -/
def listUnpack (stack : List IValue) (num_outputs : Nat) : SR (List IValue) :=
  match stack.getLast? with
  | Option.none => SR.fail .undefinedBehavior
  | some top => do
      let list ← top.toList
      TORCH_CHECK (list.length == num_outputs)
        (.lengthMismatch num_outputs list.length)
      pure (stack.dropLast ++ list)

/-- The loop `p_node->Output(i) = std::move(stack[i])` from index `i`, for
the given number of remaining iterations. -/
def moveToOutputs (stack : List IValue) (i : Nat) : Nat → SR Unit
  | 0 => SR.pure ()
  | k + 1 => do
      let v ← vecAt stack i
      setOutput i v
      moveToOutputs stack (i + 1) k

/-- The native closure for `aten::transpose`. -/
def native_transpose (env : Env) : SROperator := do
  let in0_t ← (← Input 0).toTensor
  let in1_i ← (← Input 1).toInt
  let in2_i ← (← Input 2).toInt
  let r ← newView env.lib (.transpose (← deref in0_t) in1_i in2_i)
  setOutput 0 r

/-- The native closure for `aten::flatten`. -/
def native_flatten (env : Env) : SROperator := do
  let in0_t ← (← Input 0).toTensor
  let in1_i ← (← Input 1).toInt
  let in2_i ← (← Input 2).toInt
  let r ← newView env.lib (.flatten (← deref in0_t) in1_i in2_i)
  setOutput 0 r

/-- The native closure for `prim::TupleConstruct`. -/
def native_TupleConstruct : SROperator := do
  -- prepare inputs
  let stack ← prepareInputs
  -- run op
  let node := (← SR.get).node
  let out ← node.output
  let stack ← match out.type with
    | .tuple name =>
        if name.isSome then namedTupleConstruct stack name node.inputs.length
        else tupleConstruct stack node.inputs.length
    | _ => SR.fail .invariantViolation
  -- put output back
  let v ← vecAt stack 0
  setOutput 0 v

/-- The native closure for `prim::ListConstruct`. -/
def native_ListConstruct : SROperator := do
  -- prepare inputs
  let stack ← prepareInputs
  -- run op
  let out ← (← SR.get).node.output
  TORCH_INTERNAL_ASSERT (out.type == .list)
  let stack ← listConstruct stack (← SR.get).inputs.length
  -- put output back
  let v ← vecAt stack 0
  setOutput 0 v

/-- The native closure for `prim::ListUnpack`. -/
def native_ListUnpack (env : Env) : SROperator := do
  -- prepare inputs
  let stack ← prepareInputs
  -- run op
  let num_outputs := (← SR.get).outputs.length
  let stack ← listUnpack stack num_outputs
  -- put output back
  DCHECK env.build (stack.length == num_outputs)
  moveToOutputs stack 0 num_outputs

/-- The native closure for `aten::permute`. -/
def native_permute (env : Env) : SROperator := do
  let in0_t ← (← Input 0).toTensor
  let in1_iv ← (← Input 1).toIntVector
  let r ← newView env.lib (.permute (← deref in0_t) in1_iv)
  setOutput 0 r

/-- The native closure for `aten::reshape`. -/
def native_reshape (env : Env) : SROperator := do
  let in0_t ← (← Input 0).toTensor
  let in1_iv ← (← Input 1).toIntVector
  let r ← newView env.lib (.reshape (← deref in0_t) in1_iv)
  setOutput 0 r

/-- The native closure for `aten::slice`. -/
def native_slice (env : Env) : SROperator := do
  let in0_t ← (← Input 0).toTensor
  let in1_i ← (← Input 1).toInt
  let in2_i ← (← Input 2).toInt
  let in3_i ← (← Input 3).toInt
  let in4_i ← (← Input 4).toInt
  let r ← newView env.lib (.slice (← deref in0_t) in1_i in2_i in3_i in4_i)
  setOutput 0 r

/-- The native closure for `aten::narrow`. -/
def native_narrow (env : Env) : SROperator := do
  let self ← (← Input 0).toTensor
  let dim ← (← Input 1).toInt
  let in2 ← Input 2
  let start ← (if in2.isScalar then in2.toInt
    else (do
      let t ← in2.toTensor
      SR.ofLib (env.lib.item (← deref t))))
  let length ← (← Input 3).toInt
  let selfImpl ← deref self
  TORCH_CHECK (selfImpl.dim > 0) .zeroDim
  let cur_size ← SR.ofExcept (selfImpl.size dim)
  let start ← (if start ≠ cur_size ∧ start < 0 then
      SR.ofExcept (maybe_wrap_dim start cur_size)
    else pure start)
  TORCH_CHECK (decide (length ≥ 0) && decide (start ≤ int64 (cur_size - length)))
    (.outOfRange start length cur_size)
  let r ← newView env.lib (.slice selfImpl dim start (int64 (start + length)) 1)
  setOutput 0 r

/-- The native closure for `aten::to`. -/
def native_to (env : Env) : SROperator := do
  DCHECK env.build ((← SR.get).inputs.length == 5)
  let in0_t ← (← Input 0).toTensor
  let in1_i ← (← Input 1).toScalarType
  let in2_i ← (← Input 2).toBool
  let in3_i ← (← Input 3).toBool
  if (← Input 4).isNone then
    let r ← newView env.lib (.to (← deref in0_t) in1_i in2_i in3_i Option.none)
    setOutput 0 r
  else
    let in4_o ← (← Input 4).toMemoryFormat
    let r ← newView env.lib (.to (← deref in0_t) in1_i in2_i in3_i (some in4_o))
    setOutput 0 r

/-- The function `getNativeOperation` of `ops.cpp`. -/
def getNativeOperation (env : Env) (n : Node) : SROperator :=
  if n.kind == "aten::transpose" then
    native_transpose env
  else if n.kind == "aten::flatten" then
    native_flatten env
  else if n.kind == "prim::TupleConstruct" then
    native_TupleConstruct
  else if n.kind == "prim::ListConstruct" then
    native_ListConstruct
  else if n.kind == "prim::ListUnpack" then
    native_ListUnpack env
  else if n.kind == "aten::permute" then
    native_permute env
  else if n.kind == "aten::reshape" then
    native_reshape env
  else if n.kind == "aten::slice" then
    native_slice env
  else if n.kind == "aten::narrow" then
    native_narrow env
  else if n.kind == "aten::to" then
    native_to env
  else
    TORCH_CHECK false .unimplemented

/-- The identifiers for which `getNativeOperation` has a branch. -/
def nativeDispatch : List String :=
  ["aten::transpose", "aten::flatten", "prim::TupleConstruct",
   "prim::ListConstruct", "prim::ListUnpack", "aten::permute", "aten::reshape",
   "aten::slice", "aten::narrow", "aten::to"]

/-- The identifiers registered with `REGISTER_OPERATOR_FUNCTOR` in `ops.cpp`. -/
def registeredNames : List String :=
  ["aten::add", "aten::mul", "aten::addmm", "aten::clamp", "aten::bmm",
   "aten::nan_to_num", "aten::cat", "aten::tanh", "aten::stack",
   "aten::sigmoid", "aten::leaky_relu", "aten::relu", "aten::logit",
   "aten::clone"]

/-! ## A reference library, for evaluation on concrete inputs -/

/-- The half-open slice `[start, stop)` with step `step` along `dim`, as view
metadata over the storage of `self`. -/
def sliceView (self : TensorImpl) (dim start stop step : Int) : TensorImpl :=
  let d := dim.toNat
  let stride := self.strides.getD d 1
  { self with
    sizes := self.sizes.set d ((stop - start + step - 1) / step)
    strides := self.strides.set d (stride * step)
    storage_offset := self.storage_offset + start * stride }

/-- A small library instance: element-wise kernels give the destination the
shape of their first input, slicing is `sliceView`, the other view functions
keep the metadata of `self`. -/
def ATen.reference : ATen where
  run := fun c =>
    match c with
    | .add_impl _ _ _ out => { out := out, failed := Option.none }
    | .mul_out out in0 _ => { out := out.resize_ in0.sizes, failed := Option.none }
    | .addmm_cpu_out out in0 _ _ _ _ =>
        { out := out.resize_ in0.sizes, failed := Option.none }
    | .clamp_out out in0 _ _ => { out := out.resize_ in0.sizes, failed := Option.none }
    | .bmm_out_cpu out in0 _ => { out := out.resize_ in0.sizes, failed := Option.none }
    | .nan_to_num_out out in0 _ _ _ =>
        { out := out.resize_ in0.sizes, failed := Option.none }
    | ._cat_out_cpu out _ _ => { out := out, failed := Option.none }
    | .tanh_out out in0 => { out := out.resize_ in0.sizes, failed := Option.none }
    | .sigmoid_out out in0 => { out := out.resize_ in0.sizes, failed := Option.none }
    | .leaky_relu_out out in0 _ =>
        { out := out.resize_ in0.sizes, failed := Option.none }
    | .threshold_out out in0 _ _ =>
        { out := out.resize_ in0.sizes, failed := Option.none }
    | .logit_out out in0 _ => { out := out.resize_ in0.sizes, failed := Option.none }
    | .copy_ out in0 _ => { out := { out with elems := in0.elems }, failed := Option.none }
  view := fun c =>
    match c with
    | .slice self dim start stop step => .ok (sliceView self dim start stop step)
    | .transpose self _ _ => .ok self
    | .flatten self _ _ => .ok self
    | .permute self _ => .ok self
    | .reshape self _ => .ok self
    | .unsqueeze self _ => .ok self
    | .to self _ _ _ _ => .ok self
  create_empty_from := fun t => { t with sizes := [0], strides := [1], elems := [] }
  item := fun t => match t.elems with
    | [x] => .ok x
    | _ => .error 0
  add_meta := fun a _ _ =>
    .ok { sizes := a.sizes, strides := [], memory_format_opt := Option.none }
  empty_tensor_restride := fun t _ => t

/-- An environment over the reference library in which the registration
macro declares both reuse flags. -/
def Env.reference (debug : Bool) : Env where
  build := { debug := debug }
  lib := ATen.reference
  reuse_inp := fun _ => true
  reuse_out := fun _ => true

/-- A contiguous tensor object of the given shape. -/
def TensorImpl.ofShape (sizes : List Int) : TensorImpl where
  sizes := sizes
  strides := contiguousStrides sizes
  storage := 0
  storage_offset := 0
  dtype := 0
  elems := []

/-- A node of the given kind with the given number of inputs and outputs. -/
def Node.ofKind (kind : String) (numInputs numOutputs : Nat) : Node where
  kind := kind
  inputs := List.replicate numInputs { constant := Option.none, type := .other }
  outputs := List.replicate numOutputs { constant := Option.none, type := .other }

/-- A run context over the given node and slots, with no kernel invocation
recorded yet. -/
def ProcessedNode.initial (node : Node) (inputs outputs : List IValue)
    (heap : List TensorImpl) : ProcessedNode where
  node := node
  inputs := inputs
  outputs := outputs
  heap := heap
  calls := []

/-- The start offset of narrow is given as an integer, or as a tensor whose
single element the library reads as `start`. -/
def readsStart (lib : ATen) (p : ProcessedNode) (in2 : IValue) (start : Int) : Prop :=
  in2 = .int start ∨
    ∃ h ti, in2 = .tensor h ∧ p.heap[h]? = some ti ∧ lib.item ti = .ok start

/-- The outcome of narrow on the source tensor `t` once its arguments are
read, `s` being the start after wrapping: out of range, or the slice
`[s, s + length)` along `dim` as a new tensor object behind output slot 0. -/
def narrowOutcome (lib : ATen) (p : ProcessedNode) (t : TensorImpl)
    (dim s length cur : Int) : Except Err Unit × ProcessedNode :=
  if 0 ≤ length ∧ s + length ≤ cur then
    match lib.view (.slice t dim s (s + length) 1) with
    | .ok v =>
      if 0 < p.outputs.length then
        (.ok (), { p with heap := p.heap ++ [v],
                          outputs := p.outputs.set 0 (.tensor p.heap.length) })
      else (.error .invariantViolation, { p with heap := p.heap ++ [v] })
    | .error c => (.error (.kernel c), p)
  else (.error (.outOfRange s length cur), p)

/-- The run context `p` with the four input slots of a narrow node: source
tensor, dimension, start and length. -/
def ProcessedNode.withNarrowInputs (p : ProcessedNode) (self : Nat)
    (dim start length : Int) : ProcessedNode :=
  { p with inputs := [.tensor self, .int dim, .int start, .int length] }

/-- A run context for narrow on a tensor of shape `[10]`: one tensor object,
one empty output slot. -/
def narrowExample (start length : Int) : ProcessedNode :=
  (ProcessedNode.initial (Node.ofKind "aten::narrow" 4 1) [] [.none]
    [TensorImpl.ofShape [10]]).withNarrowInputs 0 0 start length

/-- The computation writes no output slot and invokes no kernel. -/
def Quiet {α : Type} (m : SR α) : Prop :=
  ∀ s, (m s).2.outputs = s.outputs ∧ (m s).2.calls = s.calls

/-- The computation leaves every output slot as it is when slot 0 is not
empty at the start. -/
def KeepsSlot {α : Type} (m : SR α) : Prop :=
  ∀ s, s.outputs[0]? ≠ some .none → (m s).2.outputs = s.outputs

/-- The output slot 0 is empty, or holds a handle to a tensor object. -/
def outputReady (p : ProcessedNode) : Prop :=
  p.outputs[0]? = some .none ∨
    ∃ oh ot, p.outputs[0]? = some (.tensor oh) ∧ p.heap[oh]? = some ot

/-- The three optional arguments of `aten::nan_to_num`, with their defaults. -/
def nanToNumArgs (ds : List Double) : Double × Double × Double :=
  (ds[0]?.getD Double.zero, ds[1]?.getD Double.infinity, ds[2]?.getD Double.negInfinity)

/-- A run context for a node of the given kind over three tensor objects of
shape `[2, 3]` (handles 0, 1 and 2), with the given input slots and a single
output slot holding `out`. -/
def outOfPlaceExample (kind : String) (inputs : List IValue) (out : IValue) :
    ProcessedNode :=
  ProcessedNode.initial (Node.ofKind kind inputs.length 1) inputs [out]
    [TensorImpl.ofShape [2, 3], TensorImpl.ofShape [2, 3], TensorImpl.ofShape [2, 3]]

/-- A run context of a list-unpack node with three output slots whose input
slot holds the sequence `xs`. -/
def listUnpackExample (xs : List IValue) : ProcessedNode :=
  ProcessedNode.initial (Node.ofKind "prim::ListUnpack" 1 3) [.list xs]
    [.none, .none, .none] []

/-- The computation leaves the whole context as it is. -/
def Silent {α : Type} (m : SR α) : Prop := ∀ s, (m s).2 = s

/-- The registry holds exactly the identifiers registered in `ops.cpp`. -/
theorem Registry.Has_iff (env : Env) (name : String) :
    Registry.Has env name = true ↔ name ∈ registeredNames := by
  simp only [Registry.Has, Registry.Create, SROperatorRegistry,
    REGISTER_OPERATOR_FUNCTOR, List.lookup, registeredNames]
  repeat' split
  all_goals simp_all

/-- Two nodes with the same identifier and the same number of inputs are
classified alike by `canRunNatively`. -/
theorem canRunNatively_congr (n m : Node) (hk : n.kind = m.kind)
    (hi : n.inputs.length = m.inputs.length) :
    canRunNatively n = canRunNatively m := by
  simp [canRunNatively, hk, hi]

/-- C1: `canRunNatively n` is true exactly when the identifier of `n` is one
of the nine allow-listed names and, when the identifier is `aten::to`, `n`
has exactly five inputs; in particular an `aten::to` node with 5 inputs is
native and one with 4 inputs is not. -/
theorem C1_canRunNatively_iff (n : Node) :
    (canRunNatively n = true ↔
      (n.kind ∈ ["aten::flatten", "aten::narrow", "aten::reshape", "aten::slice",
          "aten::transpose", "aten::to", "prim::ListConstruct",
          "prim::ListUnpack", "prim::TupleConstruct"] ∧
        (n.kind = "aten::to" → n.inputs.length = 5))) ∧
    (n.kind = "aten::to" → n.inputs.length = 5 → canRunNatively n = true) ∧
    (n.kind = "aten::to" → n.inputs.length = 4 → canRunNatively n = false) := by
  unfold canRunNatively native_nodes
  by_cases h : n.kind = "aten::to"
  · simp [h]
    intro h4
    omega
  · simp [h]

/-- C1, evaluated: the conversion node with five inputs is native, the one
with four inputs is not, and a narrow node is native whatever its arity. -/
theorem C1_canRunNatively_witness :
    canRunNatively (Node.ofKind "aten::to" 5 1) = true ∧
    canRunNatively (Node.ofKind "aten::to" 4 1) = false ∧
    canRunNatively (Node.ofKind "aten::narrow" 4 1) = true :=
  ⟨(C1_canRunNatively_iff (Node.ofKind "aten::to" 5 1)).2.1 rfl rfl,
   (C1_canRunNatively_iff (Node.ofKind "aten::to" 4 1)).2.2 rfl rfl,
   (C1_canRunNatively_iff (Node.ofKind "aten::narrow" 4 1)).1.2
     ⟨by simp [Node.ofKind], by simp [Node.ofKind]⟩⟩

/-- C5: no node is both native and out-of-place: the allow-list and the
identifiers registered in `ops.cpp` are disjoint, a node is out-of-place
exactly when its identifier is one of the fourteen registered names, so every
node is in exactly one of the classes native, out-of-place, neither; and the
class of a node depends only on its identifier and its number of inputs. -/
theorem C5_classes_exclusive (env : Env) (n m : Node) :
    ¬ (canRunNatively n = true ∧ canRunOutOfPlace env n = true) ∧
    (∀ name, name ∈ native_nodes → Registry.Has env name = false) ∧
    (canRunOutOfPlace env n = true ↔
      n.kind ∈ ["aten::add", "aten::mul", "aten::addmm", "aten::clamp",
        "aten::bmm", "aten::nan_to_num", "aten::cat", "aten::tanh",
        "aten::stack", "aten::sigmoid", "aten::leaky_relu", "aten::relu",
        "aten::logit", "aten::clone"]) ∧
    (n.kind = m.kind → n.inputs.length = m.inputs.length →
      canRunNatively n = canRunNatively m ∧
      canRunOutOfPlace env n = canRunOutOfPlace env m) := by
  have hdisj : ∀ name, name ∈ native_nodes → Registry.Has env name = false := by
    intro name hmem
    have hnot : ¬ name ∈ registeredNames := by
      simp only [native_nodes, List.mem_cons, List.mem_singleton, List.not_mem_nil,
        or_false] at hmem
      rcases hmem with h | h | h | h | h | h | h | h | h <;> subst h <;>
        simp [registeredNames]
    cases hh : Registry.Has env name
    · rfl
    · exact absurd ((Registry.Has_iff env name).1 hh) hnot
  refine ⟨?_, hdisj, ?_, ?_⟩
  · rintro ⟨hnat, hout⟩
    have hmem : n.kind ∈ native_nodes := by
      unfold canRunNatively at hnat
      by_cases hc : native_nodes.contains n.kind = true
      · simpa using hc
      · simp [hc] at hnat
        exact hnat.1
    have := hdisj n.kind hmem
    simp [canRunOutOfPlace, this] at hout
  · simpa [canRunOutOfPlace, registeredNames] using Registry.Has_iff env n.kind
  · intro hk hi
    exact ⟨canRunNatively_congr n m hk hi, by simp [canRunOutOfPlace, hk]⟩

/-- C5, evaluated: a multiplication node is out-of-place and not native, a
narrow node is native and not out-of-place, and two conversion nodes of equal
arity are classified alike. -/
theorem C5_classes_exclusive_witness :
    canRunNatively (Node.ofKind "aten::mul" 2 1) = false ∧
    canRunOutOfPlace (Env.reference false) (Node.ofKind "aten::mul" 2 1) = true ∧
    canRunNatively (Node.ofKind "aten::to" 5 1) =
      canRunNatively (Node.ofKind "aten::to" 5 2) := by
  have h := C5_classes_exclusive (Env.reference false)
    (Node.ofKind "aten::mul" 2 1) (Node.ofKind "aten::mul" 2 1)
  have hout : canRunOutOfPlace (Env.reference false) (Node.ofKind "aten::mul" 2 1)
      = true := h.2.2.1.2 (by simp [Node.ofKind])
  have h2 := C5_classes_exclusive (Env.reference false)
    (Node.ofKind "aten::to" 5 1) (Node.ofKind "aten::to" 5 2)
  refine ⟨?_, hout, (h2.2.2.2 rfl (by simp [Node.ofKind])).1⟩
  cases hn : canRunNatively (Node.ofKind "aten::mul" 2 1)
  · rfl
  · exact absurd ⟨hn, hout⟩ h.1

/-- C10, refuted as stated: in a build with `NDEBUG` the `DCHECK` is compiled
out, and `canReuseInputs` on an unregistered identifier does not fail with an
invariant violation: it calls a method through the null pointer returned by
`Create`. -/
theorem C10_release_counterexample :
    Registry.Has (Env.reference false) (Node.ofKind "aten::permute" 2 1).kind = false ∧
    canReuseInputs (Env.reference false) (Node.ofKind "aten::permute" 2 1)
      = .error .undefinedBehavior ∧
    canReuseInputs (Env.reference false) (Node.ofKind "aten::permute" 2 1)
      ≠ .error .invariantViolation ∧
    canReuseOutputs (Env.reference false) (Node.ofKind "aten::permute" 2 1)
      ≠ .error .invariantViolation := by
  refine ⟨by decide, rfl, ?_, ?_⟩
  · have h : canReuseInputs (Env.reference false) (Node.ofKind "aten::permute" 2 1)
        = .error .undefinedBehavior := rfl
    rw [h]; simp
  · have h : canReuseOutputs (Env.reference false) (Node.ofKind "aten::permute" 2 1)
        = .error .undefinedBehavior := rfl
    rw [h]; simp

/-- C10, amended: on an unregistered identifier `canReuseInputs` and
`canReuseOutputs` fail with an invariant violation in debug builds (the
`DCHECK`); in builds with `NDEBUG` the check is compiled out, no invariant
violation is raised and the call goes through the null pointer returned by
`Create`; in no build do they return a boolean. On a registered identifier
they return, in every build, the flags declared by the matching functor. -/
theorem C10_canReuse_amended (env : Env) (n : Node) :
    (Registry.Has env n.kind = false → env.build.debug = true →
      canReuseInputs env n = .error .invariantViolation ∧
      canReuseOutputs env n = .error .invariantViolation) ∧
    (Registry.Has env n.kind = false → env.build.debug = false →
      canReuseInputs env n = .error .undefinedBehavior ∧
      canReuseOutputs env n = .error .undefinedBehavior) ∧
    (∀ f, Registry.Create env n.kind = some f →
      canReuseInputs env n = .ok f.CanReuseInput ∧
      canReuseOutputs env n = .ok f.CanReuseOutput) := by
  refine ⟨?_, ?_, ?_⟩
  · intro hh hd
    simp [canReuseInputs, canReuseOutputs, DCHECK_pure, hh, hd, bind, Except.bind]
  · intro hh hd
    have hc : Registry.Create env n.kind = Option.none := by
      simpa [Registry.Has] using hh
    simp [canReuseInputs, canReuseOutputs, DCHECK_pure, hd, hc, bind, Except.bind,
      throw, throwThe, MonadExceptOf.throw]
  · intro f hf
    have hh : Registry.Has env n.kind = true := by simp [Registry.Has, hf]
    simp [canReuseInputs, canReuseOutputs, DCHECK_pure, hh, hf, bind, Except.bind,
      pure, Except.pure]

/-- C10, amended, evaluated: an unregistered node in a debug build and in a
build with `NDEBUG`, and a registered node. -/
theorem C10_canReuse_amended_witness :
    canReuseInputs (Env.reference true) (Node.ofKind "aten::permute" 2 1)
      = .error .invariantViolation ∧
    canReuseOutputs (Env.reference false) (Node.ofKind "aten::permute" 2 1)
      = .error .undefinedBehavior ∧
    canReuseInputs (Env.reference false) (Node.ofKind "aten::mul" 2 1) = .ok true :=
  ⟨((C10_canReuse_amended (Env.reference true)
      (Node.ofKind "aten::permute" 2 1)).1 (by decide) rfl).1,
   ((C10_canReuse_amended (Env.reference false)
      (Node.ofKind "aten::permute" 2 1)).2.1 (by decide) rfl).2,
   ((C10_canReuse_amended (Env.reference false) (Node.ofKind "aten::mul" 2 1)).2.2
      { Generate := aten_mul (Env.reference false), CanReuseInput := true,
        CanReuseOutput := true } rfl).1⟩

/-- C6: for a node whose identifier has no branch in `getNativeOperation` and
is not in the operator registry, `getOutOfPlaceOperation` returns a closure,
and both that closure and the closure returned by `getNativeOperation` abort
on every run context with the condition of `TORCH_CHECK(0)`, leaving the
context (every output slot included) exactly as it was. -/
theorem C6_fallback_aborts (env : Env) (n : Node)
    (hnative : n.kind ∉ ["aten::transpose", "aten::flatten", "prim::TupleConstruct",
      "prim::ListConstruct", "prim::ListUnpack", "aten::permute", "aten::reshape",
      "aten::slice", "aten::narrow", "aten::to"])
    (hreg : Registry.Has env n.kind = false) :
    (∃ op, getOutOfPlaceOperation env n = .ok op ∧
      ∀ p : ProcessedNode, op p = (.error .unimplemented, p)) ∧
    (∀ p : ProcessedNode,
      getNativeOperation env n p = (.error .unimplemented, p)) := by
  simp only [List.mem_cons, List.mem_singleton, List.not_mem_nil, or_false,
    not_or] at hnative
  obtain ⟨h1, h2, h3, h4, h5, h6, h7, h8, h9, h10⟩ := hnative
  refine ⟨⟨TORCH_CHECK false .unimplemented, ?_, ?_⟩, ?_⟩
  · simp [getOutOfPlaceOperation, hreg]
  · intro p
    rfl
  · intro p
    simp [getNativeOperation, h1, h2, h3, h4, h5, h6, h7, h8, h9, h10]
    rfl

/-- C6, evaluated on a convolution node, which neither table covers. -/
theorem C6_fallback_aborts_witness :
    (∃ op, getOutOfPlaceOperation (Env.reference false) (Node.ofKind "aten::conv2d" 2 1)
        = .ok op ∧
      ∀ p : ProcessedNode, op p = (.error .unimplemented, p)) ∧
    (∀ p : ProcessedNode,
      getNativeOperation (Env.reference false) (Node.ofKind "aten::conv2d" 2 1) p
        = (.error .unimplemented, p)) :=
  C6_fallback_aborts (Env.reference false) (Node.ofKind "aten::conv2d" 2 1)
    (by decide) (by decide)

/-! ## Running closures: evaluation lemmas -/

theorem run_bind {α β : Type} (m : SR α) (f : α → SR β) (s : ProcessedNode) :
    (m >>= f) s = match m s with
      | (.ok a, s1) => f a s1
      | (.error e, s1) => (.error e, s1) := rfl

theorem run_pure {α : Type} (a : α) (s : ProcessedNode) :
    (pure a : SR α) s = (.ok a, s) := rfl

theorem toTensor_tensor (h : Nat) : (IValue.tensor h).toTensor = SR.pure h := rfl

theorem toInt_int (i : Int) : (IValue.int i).toInt = SR.pure i := rfl

theorem toDouble_double (d : Double) : (IValue.double d).toDouble = SR.pure d := rfl
theorem isNone_none : IValue.none.isNone = true := rfl
theorem isNone_tensor (h : Nat) : (IValue.tensor h).isNone = false := rfl

theorem getElem?_lt_of_eq_some {α : Type} (l : List α) (i : Nat) (a : α)
    (h : l[i]? = some a) : i < l.length := by
  rcases Nat.lt_or_ge i l.length with h1 | h1
  · exact h1
  · rw [List.getElem?_eq_none h1] at h; cases h

theorem invoke_calls (lib : ATen) (out : Nat) (c : KernelCall) (s : ProcessedNode) :
    (invoke lib out c s).2.calls = s.calls ++ [c] := by
  unfold invoke
  simp only
  split <;> rfl


theorem int64_of_isInt64 (x : Int) (h : isInt64 x) : int64 x = x := by
  unfold isInt64 at h
  unfold int64
  omega

/-! ## Narrow -/

theorem size_dim_pos (t : TensorImpl) (dim cur : Int) (h : t.size dim = .ok cur) :
    0 < t.sizes.length := by
  unfold TensorImpl.size maybe_wrap_dim TensorImpl.dim at h
  by_cases hr : -(t.sizes.length : Int) ≤ dim ∧ dim < t.sizes.length
  · omega
  · simp [hr] at h

/-- The run of the narrow closure, for a start that is not below `-cur`. -/
theorem narrow_run (env : Env) (p : ProcessedNode) (self : Nat) (t : TensorImpl)
    (in2 : IValue) (dim start length cur : Int)
    (hin : p.inputs = [.tensor self, .int dim, in2, .int length])
    (hstart : readsStart env.lib p in2 start)
    (hheap : p.heap[self]? = some t)
    (hsize : t.size dim = .ok cur)
    (hcur : 0 ≤ cur) (hcur64 : isInt64 cur) (hlen64 : isInt64 length)
    (hlo : -cur ≤ start) :
    native_narrow env p =
      narrowOutcome env.lib p t dim (if start < 0 then start + cur else start)
        length cur := by
  have hdimpos := size_dim_pos t dim cur hsize
  have hread : (if in2.isScalar then in2.toInt
      else (do
        let t ← in2.toTensor
        SR.ofLib (env.lib.item (← deref t)))) p = (.ok start, p) := by
    rcases hstart with h | ⟨h, ti, h1, h2, h3⟩
    · subst h; rfl
    · subst h1
      simp [IValue.isScalar, IValue.toTensor, run_bind, SR.pure, deref, h2, h3, SR.ofLib]
  have hc1 : 0 ≤ length → int64 (cur - length) = cur - length := by
    intro h
    apply int64_of_isInt64
    unfold isInt64 at *
    omega
  have hc2 : ∀ s : Int, 0 ≤ s → 0 ≤ length → s + length ≤ cur →
      int64 (s + length) = s + length := by
    intro s h1 h2 h3
    apply int64_of_isInt64
    unfold isInt64 at *
    omega
  simp only [native_narrow, run_bind, Input, hin, toTensor_tensor, toInt_int, SR.pure,
    List.getElem?_cons_zero, List.getElem?_cons_succ, hread]
  by_cases hneg : start < 0
  · have hne : start ≠ cur := by omega
    have hw : maybe_wrap_dim start cur = .ok (start + cur) := by
      simp [maybe_wrap_dim, hneg, hlo]; omega
    by_cases hl : 0 ≤ length
    · by_cases hb : start + cur + length ≤ cur
      · have hb2 : start + cur ≤ cur - length := by omega
        have hi := hc2 (start + cur) (by omega) hl hb
        cases hv : env.lib.view (.slice t dim (start + cur) (start + cur + length) 1) with
        | error c =>
          simp [run_bind, run_pure, Input, hin, toInt_int, toTensor_tensor, SR.pure,
            SR.fail, deref, hheap, TORCH_CHECK, TensorImpl.dim, hdimpos, SR.ofExcept,
            hsize, hneg, hne, hw, hl, hc1 hl, hb, hb2, hi, narrowOutcome, newView,
            SR.ofLib, hv]
        | ok v =>
          simp [run_bind, run_pure, Input, hin, toInt_int, toTensor_tensor, SR.pure,
            SR.fail, deref, hheap, TORCH_CHECK, TensorImpl.dim, hdimpos, SR.ofExcept,
            hsize, hneg, hne, hw, hl, hc1 hl, hb, hb2, hi, narrowOutcome, newView,
            SR.ofLib, hv, alloc, setOutput]
      · have hb2 : ¬ start + cur ≤ cur - length := by omega
        simp [run_bind, run_pure, Input, hin, toInt_int, toTensor_tensor, SR.pure, deref,
          hheap, TORCH_CHECK, TensorImpl.dim, hdimpos, SR.ofExcept, hsize, hneg, hne, hw,
          hl, hc1 hl, hb, hb2, narrowOutcome, SR.fail]
    · simp [run_bind, run_pure, Input, hin, toInt_int, toTensor_tensor, SR.pure, deref,
        hheap, TORCH_CHECK, TensorImpl.dim, hdimpos, SR.ofExcept, hsize, hneg, hne, hw,
        hl, narrowOutcome, SR.fail]
  · have hs0 : 0 ≤ start := by omega
    by_cases hl : 0 ≤ length
    · by_cases hb : start + length ≤ cur
      · have hb2 : start ≤ cur - length := by omega
        have hi := hc2 start hs0 hl hb
        cases hv : env.lib.view (.slice t dim start (start + length) 1) with
        | error c =>
          simp [run_bind, run_pure, Input, hin, toInt_int, toTensor_tensor, SR.pure,
            SR.fail, deref, hheap, TORCH_CHECK, TensorImpl.dim, hdimpos, SR.ofExcept,
            hsize, hneg, hl, hc1 hl, hb, hb2, hi, narrowOutcome, newView, SR.ofLib, hv]
        | ok v =>
          simp [run_bind, run_pure, Input, hin, toInt_int, toTensor_tensor, SR.pure,
            SR.fail, deref, hheap, TORCH_CHECK, TensorImpl.dim, hdimpos, SR.ofExcept,
            hsize, hneg, hl, hc1 hl, hb, hb2, hi, narrowOutcome, newView, SR.ofLib, hv,
            alloc, setOutput]
      · have hb2 : ¬ start ≤ cur - length := by omega
        simp [run_bind, run_pure, Input, hin, toInt_int, toTensor_tensor, SR.pure, deref,
          hheap, TORCH_CHECK, TensorImpl.dim, hdimpos, SR.ofExcept, hsize, hneg, hl,
          hc1 hl, hb, hb2, narrowOutcome, SR.fail]
    · simp [run_bind, run_pure, Input, hin, toInt_int, toTensor_tensor, SR.pure, deref,
        hheap, TORCH_CHECK, TensorImpl.dim, hdimpos, SR.ofExcept, hsize, hneg, hl,
        narrowOutcome, SR.fail]

theorem getNativeOperation_narrow (env : Env) (n : Node)
    (hkind : n.kind = "aten::narrow") :
    getNativeOperation env n = native_narrow env := by
  simp [getNativeOperation, hkind]

/-- The outcome of narrow is the out-of-range condition exactly when the
bounds check fails. -/
theorem narrowOutcome_outOfRange (lib : ATen) (p : ProcessedNode) (t : TensorImpl)
    (dim s length cur : Int) :
    (∃ a b c, (narrowOutcome lib p t dim s length cur).1 = .error (.outOfRange a b c)) ↔
      ¬ (0 ≤ length ∧ s + length ≤ cur) := by
  unfold narrowOutcome
  by_cases h : 0 ≤ length ∧ s + length ≤ cur
  · simp only [h, and_self, if_true, not_true_eq_false, iff_false]
    rintro ⟨a, b, c, hh⟩
    cases hv : lib.view (.slice t dim s (s + length) 1) with
    | error e => simp [hv] at hh
    | ok v =>
      simp only [hv] at hh
      split at hh <;> simp at hh
  · simp only [h, if_false, not_false_eq_true, iff_true]
    exact ⟨s, length, cur, rfl⟩

/-- C2: on a source tensor with at least one dimension, a valid `dim` whose
dimension has size `cur`, any length, and a start not below `-cur` (given as
an integer or as a single-element tensor), the narrow closure fails with the
out-of-range condition exactly when it is not the case that
`length >= 0` and `s + length <= cur`, `s` being `start + cur` when `start`
is negative and `start` otherwise; the condition then names `s`, `length` and
`cur`, and the run context is left as it was. -/
theorem C2_narrow_outOfRange (env : Env) (n : Node) (p : ProcessedNode) (self : Nat)
    (t : TensorImpl) (in2 : IValue) (dim start length cur : Int)
    (hkind : n.kind = "aten::narrow")
    (hin : p.inputs = [.tensor self, .int dim, in2, .int length])
    (hstart : readsStart env.lib p in2 start)
    (hheap : p.heap[self]? = some t)
    (hsize : t.size dim = .ok cur)
    (hcur : 0 ≤ cur) (hcur64 : isInt64 cur) (hlen64 : isInt64 length)
    (hlo : -cur ≤ start) :
    ((∃ a b c, (getNativeOperation env n p).1 = .error (.outOfRange a b c)) ↔
      ¬ (0 ≤ length ∧ (if start < 0 then start + cur else start) + length ≤ cur)) ∧
    (¬ (0 ≤ length ∧ (if start < 0 then start + cur else start) + length ≤ cur) →
      getNativeOperation env n p =
        (.error (.outOfRange (if start < 0 then start + cur else start) length cur), p)) := by
  rw [getNativeOperation_narrow env n hkind,
    narrow_run env p self t in2 dim start length cur hin hstart hheap hsize hcur hcur64
      hlen64 hlo]
  refine ⟨narrowOutcome_outOfRange _ _ _ _ _ _ _, ?_⟩
  intro h
  simp [narrowOutcome, h]

/-- C2, evaluated: on shape `[10]`, `narrow(dim 0, start 9, length 2)` fails
with the out-of-range condition naming 9, 2 and 10. -/
theorem C2_narrow_outOfRange_witness :
    getNativeOperation (Env.reference false) (Node.ofKind "aten::narrow" 4 1)
        (narrowExample 9 2)
      = (.error (.outOfRange 9 2 10), narrowExample 9 2) :=
  (C2_narrow_outOfRange (Env.reference false) (Node.ofKind "aten::narrow" 4 1)
    (narrowExample 9 2) 0 (TensorImpl.ofShape [10]) (.int 9) 0 9 2 10 rfl rfl
    (Or.inl rfl) rfl rfl (by decide) (by decide) (by decide) (by decide)).2 (by decide)

/-- C3: for a dimension of size `cur >= 1` and a start with
`-cur <= start < 0`, the narrow closure run with the offset `start` and run
with the offset `start + cur` have the same outcome: the same result or
failure, the same output slots, tensor objects and kernel record. When the
bounds check passes that outcome is the slice
`[start + cur, start + cur + length)` of the source along `dim`, as a new
tensor object behind output slot 0. A start equal to `cur` is not wrapped:
with length 0 it yields the slice `[cur, cur)`. -/
theorem C3_narrow_negative_start (env : Env) (n : Node) (p : ProcessedNode)
    (self : Nat) (t : TensorImpl) (dim start length cur : Int)
    (hkind : n.kind = "aten::narrow")
    (hheap : p.heap[self]? = some t)
    (hsize : t.size dim = .ok cur)
    (hcur : 1 ≤ cur) (hcur64 : isInt64 cur) (hlen64 : isInt64 length)
    (hneg : start < 0) (hlo : -cur ≤ start) :
    ((getNativeOperation env n (p.withNarrowInputs self dim start length)).1 =
        (getNativeOperation env n (p.withNarrowInputs self dim (start + cur) length)).1 ∧
      (getNativeOperation env n (p.withNarrowInputs self dim start length)).2.outputs =
        (getNativeOperation env n
          (p.withNarrowInputs self dim (start + cur) length)).2.outputs ∧
      (getNativeOperation env n (p.withNarrowInputs self dim start length)).2.heap =
        (getNativeOperation env n
          (p.withNarrowInputs self dim (start + cur) length)).2.heap ∧
      (getNativeOperation env n (p.withNarrowInputs self dim start length)).2.calls =
        (getNativeOperation env n
          (p.withNarrowInputs self dim (start + cur) length)).2.calls) ∧
    (∀ v, 0 ≤ length → start + length ≤ 0 → 0 < p.outputs.length →
      env.lib.view (.slice t dim (start + cur) (start + cur + length) 1) = .ok v →
      getNativeOperation env n (p.withNarrowInputs self dim start length) =
        (.ok (), { p.withNarrowInputs self dim start length with
                    heap := p.heap ++ [v],
                    outputs := p.outputs.set 0 (.tensor p.heap.length) })) ∧
    (∀ v, 0 < p.outputs.length →
      env.lib.view (.slice t dim cur cur 1) = .ok v →
      getNativeOperation env n (p.withNarrowInputs self dim cur 0) =
        (.ok (), { p.withNarrowInputs self dim cur 0 with
                    heap := p.heap ++ [v],
                    outputs := p.outputs.set 0 (.tensor p.heap.length) })) := by
  have h1 := narrow_run env (p.withNarrowInputs self dim start length) self t
    (.int start) dim start length cur rfl (Or.inl rfl) hheap hsize (by omega) hcur64
    hlen64 hlo
  have h2 := narrow_run env (p.withNarrowInputs self dim (start + cur) length) self t
    (.int (start + cur)) dim (start + cur) length cur rfl (Or.inl rfl) hheap hsize
    (by omega) hcur64 hlen64 (by omega)
  have h3 := narrow_run env (p.withNarrowInputs self dim cur 0) self t
    (.int cur) dim cur 0 cur rfl (Or.inl rfl) hheap hsize
    (by omega) hcur64 (by decide) (by omega)
  have hnn : ¬ start + cur < 0 := by omega
  have hcn : ¬ cur < 0 := by omega
  rw [getNativeOperation_narrow env n hkind, h1, h2, h3]
  simp only [hneg, hnn, hcn, if_true, if_false]
  refine ⟨?_, ?_, ?_⟩
  · unfold narrowOutcome
    by_cases hb : 0 ≤ length ∧ start + cur + length ≤ cur
    · cases hv : env.lib.view (.slice t dim (start + cur) (start + cur + length) 1) with
      | error c => simp [hb, hv, ProcessedNode.withNarrowInputs]
      | ok v =>
        by_cases ho : 0 < p.outputs.length
        · simp [hb, hv, ho, ProcessedNode.withNarrowInputs]
        · simp [hb, hv, ho, ProcessedNode.withNarrowInputs]
    · simp [hb, ProcessedNode.withNarrowInputs]
  · intro v hl hb ho hv
    have hb2 : start + cur + length ≤ cur := by omega
    simp [narrowOutcome, hl, hb2, hv, ho, ProcessedNode.withNarrowInputs]
  · intro v ho hv
    simp [narrowOutcome, hv, ho, ProcessedNode.withNarrowInputs]

/-- C3, evaluated: on shape `[10]`, `narrow(dim 0, start -3, length 2)` and
`narrow(dim 0, start 7, length 2)` succeed alike and leave the same slice
`[7, 9)` behind output slot 0. -/
theorem C3_narrow_negative_start_witness :
    (getNativeOperation (Env.reference false) (Node.ofKind "aten::narrow" 4 1)
        (narrowExample (-3) 2)).1 =
      (getNativeOperation (Env.reference false) (Node.ofKind "aten::narrow" 4 1)
        (narrowExample 7 2)).1 ∧
    (getNativeOperation (Env.reference false) (Node.ofKind "aten::narrow" 4 1)
        (narrowExample (-3) 2)).2.heap =
      [TensorImpl.ofShape [10], sliceView (TensorImpl.ofShape [10]) 0 7 9 1] := by
  have h := C3_narrow_negative_start (Env.reference false)
    (Node.ofKind "aten::narrow" 4 1)
    (ProcessedNode.initial (Node.ofKind "aten::narrow" 4 1) [] [.none]
      [TensorImpl.ofShape [10]]) 0 (TensorImpl.ofShape [10]) 0 (-3) 2 10 rfl rfl rfl
    (by decide) (by decide) (by decide) (by decide) (by decide)
  refine ⟨h.1.1, ?_⟩
  have h2 := h.2.1 (sliceView (TensorImpl.ofShape [10]) 0 7 9 1) (by decide) (by decide)
    (by decide) rfl
  exact congrArg (fun r => r.2.heap) h2

/-! ## List unpack -/

theorem take_succ_set {α : Type} (l : List α) (i : Nat) (v : α) (h : i < l.length) :
    (l.set i v).take (i + 1) = l.take i ++ [v] := by
  rw [List.take_succ, List.getElem?_set_self h, List.set_take]
  rw [List.set_eq_of_length_le (by simp)]
  rfl

theorem moveToOutputs_run (xs : List IValue) :
    ∀ (k i : Nat) (s : ProcessedNode), i + k = xs.length →
      s.outputs.length = xs.length →
      moveToOutputs xs i k s =
        (.ok (), { s with outputs := s.outputs.take i ++ xs.drop i }) := by
  intro k
  induction k with
  | zero =>
    intro i s hi hlen
    have h1 : xs.drop i = [] := List.drop_of_length_le (by omega)
    have h2 : s.outputs.take i = s.outputs := List.take_of_length_le (by omega)
    simp [moveToOutputs, SR.pure, h1, h2]
  | succ k ih =>
    intro i s hi hlen
    have hlt : i < xs.length := by omega
    have hget : xs[i]? = some xs[i] := List.getElem?_eq_getElem hlt
    have hstep : moveToOutputs xs i (k + 1) s =
        moveToOutputs xs (i + 1) k { s with outputs := s.outputs.set i xs[i] } := by
      simp [moveToOutputs, run_bind, vecAt, hget, SR.pure, setOutput, hlen, hlt]
    rw [hstep, ih (i + 1) _ (by omega) (by simpa using hlen)]
    simp only [take_succ_set _ _ _ (by omega : i < s.outputs.length)]
    rw [List.drop_eq_getElem_cons hlt]
    simp

theorem getNativeOperation_ListUnpack (env : Env) (n : Node)
    (hkind : n.kind = "prim::ListUnpack") :
    getNativeOperation env n = native_ListUnpack env := by
  simp [getNativeOperation, hkind]

/-- C4: for a `prim::ListUnpack` node whose run context has `N` output slots
and a single input slot holding the sequence `xs`: when `xs` has length `N`
the native closure succeeds and the output slots hold exactly the elements of
`xs`, slot `i` holding `xs[i]`, nothing else being changed; when the length of
`xs` differs from `N` the closure fails and no slot is written. -/
theorem C4_listUnpack (env : Env) (n : Node) (p : ProcessedNode)
    (xs : List IValue) (N : Nat) (hkind : n.kind = "prim::ListUnpack")
    (hout : p.outputs.length = N) (hin : p.inputs = [.list xs]) :
    (xs.length = N →
      getNativeOperation env n p = (.ok (), { p with outputs := xs }) ∧
      ∀ i, i < N → (getNativeOperation env n p).2.outputs[i]? = xs[i]?) ∧
    (xs.length ≠ N →
      getNativeOperation env n p = (.error (.lengthMismatch N xs.length), p)) := by
  rw [getNativeOperation_ListUnpack env n hkind]
  have hprep : prepareInputs p = (.ok [.list xs], p) := by
    simp [prepareInputs, run_bind, SR.get, hin, pushInputs, Input, SR.pure, run_pure]
  constructor
  · intro hlen
    have hrun : native_ListUnpack env p = (.ok (), { p with outputs := xs }) := by
      have hmove := moveToOutputs_run xs N 0 p (by omega) (by omega)
      simp [native_ListUnpack, run_bind, hprep, SR.get, run_pure, listUnpack,
        IValue.toList, SR.pure, TORCH_CHECK, hlen, hout, DCHECK, hmove]
    refine ⟨hrun, ?_⟩
    intro i _
    rw [hrun]
  · intro hlen
    simp [native_ListUnpack, run_bind, hprep, SR.get, run_pure, listUnpack,
      IValue.toList, SR.pure, TORCH_CHECK, hlen, hout, SR.fail]

/-! ## Frame properties of the closures -/

theorem Quiet_pure {α : Type} (a : α) : Quiet (pure a : SR α) := fun _ => ⟨rfl, rfl⟩
theorem Quiet_SRpure {α : Type} (a : α) : Quiet (SR.pure a) := fun _ => ⟨rfl, rfl⟩
theorem Quiet_fail {α : Type} (e : Err) : Quiet (SR.fail e : SR α) := fun _ => ⟨rfl, rfl⟩
theorem Quiet_get : Quiet SR.get := fun _ => ⟨rfl, rfl⟩

theorem Quiet_bind {α β : Type} (m : SR α) (f : α → SR β) (hm : Quiet m)
    (hf : ∀ a, Quiet (f a)) : Quiet (m >>= f) := by
  intro s
  show (SR.bind m f s).2.outputs = s.outputs ∧ (SR.bind m f s).2.calls = s.calls
  unfold SR.bind
  have h1 := hm s
  rcases hms : m s with ⟨r, s1⟩
  rw [hms] at h1
  cases r with
  | error e => exact h1
  | ok a =>
    have h2 := hf a s1
    exact ⟨h2.1.trans h1.1, h2.2.trans h1.2⟩

theorem Quiet_ite {α : Type} (c : Prop) [Decidable c] (a b : SR α) (ha : Quiet a)
    (hb : Quiet b) : Quiet (if c then a else b) := by
  split <;> assumption

theorem Quiet_Input (i : Nat) : Quiet (Input i) := by
  intro s; unfold Input; split <;> exact ⟨rfl, rfl⟩
theorem Quiet_Output (i : Nat) : Quiet (Output i) := by
  intro s; unfold Output; split <;> exact ⟨rfl, rfl⟩
theorem Quiet_deref (t : Nat) : Quiet (deref t) := by
  intro s; unfold deref; split <;> exact ⟨rfl, rfl⟩
theorem Quiet_store (t : Nat) (impl : TensorImpl) : Quiet (store t impl) :=
  fun _ => ⟨rfl, rfl⟩
theorem Quiet_alloc (impl : TensorImpl) : Quiet (alloc impl) := fun _ => ⟨rfl, rfl⟩
theorem Quiet_ofLib {α : Type} (x : Except Nat α) : Quiet (SR.ofLib x) := by
  cases x <;> exact fun _ => ⟨rfl, rfl⟩
theorem Quiet_ofExcept {α : Type} (x : Except Err α) : Quiet (SR.ofExcept x) := by
  cases x <;> exact fun _ => ⟨rfl, rfl⟩
theorem Quiet_TORCH_CHECK (c : Bool) (e : Err) : Quiet (TORCH_CHECK c e) := by
  unfold TORCH_CHECK; split <;> exact fun _ => ⟨rfl, rfl⟩
theorem Quiet_DCHECK (b : Build) (c : Bool) : Quiet (DCHECK b c) := by
  unfold DCHECK; split <;> exact fun _ => ⟨rfl, rfl⟩
theorem Quiet_toTensor (v : IValue) : Quiet v.toTensor := by
  cases v <;> exact fun _ => ⟨rfl, rfl⟩
theorem Quiet_toInt (v : IValue) : Quiet v.toInt := by
  cases v <;> exact fun _ => ⟨rfl, rfl⟩
theorem Quiet_toDouble (v : IValue) : Quiet v.toDouble := by
  cases v <;> exact fun _ => ⟨rfl, rfl⟩
theorem Quiet_toScalar (v : IValue) : Quiet v.toScalar := Quiet_ofExcept _
theorem Quiet_toList (v : IValue) : Quiet v.toList := by
  cases v <;> exact fun _ => ⟨rfl, rfl⟩
theorem Quiet_vecAt {α : Type} (xs : List α) (i : Nat) : Quiet (vecAt xs i) := by
  unfold vecAt; split <;> exact fun _ => ⟨rfl, rfl⟩

theorem Quiet_extractAll {α : Type} (get : IValue → SR α) (hg : ∀ v, Quiet (get v))
    (xs : List IValue) : Quiet (extractAll get xs) := by
  induction xs with
  | nil => exact Quiet_SRpure _
  | cons v rest ih =>
    unfold extractAll
    exact Quiet_bind _ _ (hg v) fun _ => Quiet_bind _ _ ih fun _ => Quiet_pure _

theorem Quiet_toTensorVector (v : IValue) : Quiet v.toTensorVector :=
  Quiet_bind _ _ (Quiet_toList v) fun _ => Quiet_extractAll _ Quiet_toTensor _

theorem Quiet_derefAll (hs : List Nat) : Quiet (derefAll hs) := by
  induction hs with
  | nil => exact Quiet_SRpure _
  | cons h rest ih =>
    unfold derefAll
    exact Quiet_bind _ _ (Quiet_deref h) fun _ => Quiet_bind _ _ ih fun _ => Quiet_pure _

theorem Quiet_resize_ (t : Nat) (sizes : List Int) : Quiet (resize_ t sizes) :=
  Quiet_bind _ _ (Quiet_deref t) fun _ => Quiet_store _ _

theorem Quiet_as_strided_ (t : Nat) (sizes strides : List Int) :
    Quiet (as_strided_ t sizes strides) :=
  Quiet_bind _ _ (Quiet_deref t) fun _ => Quiet_store _ _

theorem Quiet_empty_tensor_restride (lib : ATen) (t fmt : Nat) :
    Quiet (empty_tensor_restride lib t fmt) :=
  Quiet_bind _ _ (Quiet_deref t) fun _ => Quiet_store _ _

theorem Quiet_create_empty_from (lib : ATen) (t : Nat) : Quiet (create_empty_from lib t) :=
  Quiet_bind _ _ (Quiet_deref t) fun _ => Quiet_bind _ _ (Quiet_alloc _) fun _ => Quiet_pure _

theorem Quiet_newView (lib : ATen) (c : ViewCall) : Quiet (newView lib c) :=
  Quiet_bind _ _ (Quiet_ofLib _) fun _ => Quiet_bind _ _ (Quiet_alloc _) fun _ => Quiet_pure _

theorem Quiet_checkEntryShapes (shape : List Int) (hs : List Nat) :
    Quiet (checkEntryShapes shape hs) := by
  induction hs with
  | nil => exact Quiet_SRpure _
  | cons h rest ih =>
    unfold checkEntryShapes
    exact Quiet_bind _ _ (Quiet_deref h) fun _ =>
      Quiet_bind _ _ (Quiet_TORCH_CHECK _ _) fun _ => ih

theorem Quiet_unsqueezeAll (lib : ATen) (dim : Int) (hs : List Nat) :
    Quiet (unsqueezeAll lib dim hs) := by
  induction hs with
  | nil => exact Quiet_SRpure _
  | cons h rest ih =>
    unfold unsqueezeAll
    exact Quiet_bind _ _ (Quiet_deref h) fun _ =>
      Quiet_bind _ _ (Quiet_newView _ _) fun _ =>
        Quiet_bind _ _ (Quiet_toTensor _) fun _ => Quiet_bind _ _ ih fun _ => Quiet_pure _

theorem Quiet_set_output (env : Env) (out : Nat) (idx : Int) (sizes strides : List Int)
    (fmt : Option Nat) : Quiet (static_add.set_output env out idx sizes strides fmt) := by
  unfold static_add.set_output
  refine Quiet_bind _ _ (Quiet_DCHECK _ _) fun _ =>
    Quiet_bind _ _ (Quiet_resize_ _ _) fun _ => ?_
  split
  · exact Quiet_bind _ _ (Quiet_TORCH_CHECK _ _) fun _ => Quiet_as_strided_ _ _ _
  · cases fmt with
    | none => exact Quiet_pure _
    | some f => exact Quiet_empty_tensor_restride _ _ _

/-! ### Output slot 0 is only assigned when empty -/

theorem KeepsSlot_of_Quiet {α : Type} (m : SR α) (h : Quiet m) : KeepsSlot m :=
  fun s _ => (h s).1

theorem KeepsSlot_bind {α β : Type} (m : SR α) (f : α → SR β) (hm : KeepsSlot m)
    (hf : ∀ a, KeepsSlot (f a)) : KeepsSlot (m >>= f) := by
  intro s hs
  show (SR.bind m f s).2.outputs = s.outputs
  unfold SR.bind
  have h1 := hm s hs
  rcases hms : m s with ⟨r, s1⟩
  rw [hms] at h1
  cases r with
  | error e => exact h1
  | ok a =>
    simp only at h1
    have h2 := hf a s1 (by rw [h1]; exact hs)
    exact h2.trans h1

theorem KeepsSlot_ite {α : Type} (c : Prop) [Decidable c] (a b : SR α)
    (ha : KeepsSlot a) (hb : KeepsSlot b) : KeepsSlot (if c then a else b) := by
  split <;> assumption

theorem KeepsSlot_invoke (lib : ATen) (out : Nat) (c : KernelCall) :
    KeepsSlot (invoke lib out c) := by
  intro s _
  unfold invoke
  simp only
  split <;> rfl

/-- The guard `if (p_node->Output(0).isNone()) ...`: when slot 0 is not
empty only the branch that skips the assignment runs. -/
theorem KeepsSlot_guard {β : Type} (T E : SR β) (hE : KeepsSlot E) :
    KeepsSlot (Output 0 >>= fun o => if o.isNone = true then T else E) := by
  intro s hs
  simp only [run_bind, Output]
  cases h0 : s.outputs[0]? with
  | none => rfl
  | some v =>
    have hv : v.isNone = false := by
      cases v <;> first | rfl | exact absurd h0 hs
    simp only [hv, Bool.false_eq_true, if_false]
    exact hE s hs

/-! ### Dispatch of the registry -/

theorem getOutOfPlaceOperation_add (env : Env) (n : Node)
    (hk : n.kind = "aten::add") :
    getOutOfPlaceOperation env n = aten_add env n := by
  simp [getOutOfPlaceOperation, Registry.Has, Registry.Create, SROperatorRegistry,
    REGISTER_OPERATOR_FUNCTOR, List.lookup, hk]

theorem getOutOfPlaceOperation_mul (env : Env) (n : Node)
    (hk : n.kind = "aten::mul") :
    getOutOfPlaceOperation env n = aten_mul env n := by
  simp [getOutOfPlaceOperation, Registry.Has, Registry.Create, SROperatorRegistry,
    REGISTER_OPERATOR_FUNCTOR, List.lookup, hk]

theorem getOutOfPlaceOperation_addmm (env : Env) (n : Node)
    (hk : n.kind = "aten::addmm") :
    getOutOfPlaceOperation env n = aten_addmm env n := by
  simp [getOutOfPlaceOperation, Registry.Has, Registry.Create, SROperatorRegistry,
    REGISTER_OPERATOR_FUNCTOR, List.lookup, hk]

theorem getOutOfPlaceOperation_clamp (env : Env) (n : Node)
    (hk : n.kind = "aten::clamp") :
    getOutOfPlaceOperation env n = aten_clamp env n := by
  simp [getOutOfPlaceOperation, Registry.Has, Registry.Create, SROperatorRegistry,
    REGISTER_OPERATOR_FUNCTOR, List.lookup, hk]

theorem getOutOfPlaceOperation_bmm (env : Env) (n : Node)
    (hk : n.kind = "aten::bmm") :
    getOutOfPlaceOperation env n = aten_bmm env n := by
  simp [getOutOfPlaceOperation, Registry.Has, Registry.Create, SROperatorRegistry,
    REGISTER_OPERATOR_FUNCTOR, List.lookup, hk]

theorem getOutOfPlaceOperation_nan_to_num (env : Env) (n : Node)
    (hk : n.kind = "aten::nan_to_num") :
    getOutOfPlaceOperation env n = aten_nan_to_num env n := by
  simp [getOutOfPlaceOperation, Registry.Has, Registry.Create, SROperatorRegistry,
    REGISTER_OPERATOR_FUNCTOR, List.lookup, hk]

theorem getOutOfPlaceOperation_cat (env : Env) (n : Node)
    (hk : n.kind = "aten::cat") :
    getOutOfPlaceOperation env n = aten_cat env n := by
  simp [getOutOfPlaceOperation, Registry.Has, Registry.Create, SROperatorRegistry,
    REGISTER_OPERATOR_FUNCTOR, List.lookup, hk]

theorem getOutOfPlaceOperation_tanh (env : Env) (n : Node)
    (hk : n.kind = "aten::tanh") :
    getOutOfPlaceOperation env n = aten_tanh env n := by
  simp [getOutOfPlaceOperation, Registry.Has, Registry.Create, SROperatorRegistry,
    REGISTER_OPERATOR_FUNCTOR, List.lookup, hk]

theorem getOutOfPlaceOperation_stack (env : Env) (n : Node)
    (hk : n.kind = "aten::stack") :
    getOutOfPlaceOperation env n = aten_stack env n := by
  simp [getOutOfPlaceOperation, Registry.Has, Registry.Create, SROperatorRegistry,
    REGISTER_OPERATOR_FUNCTOR, List.lookup, hk]

theorem getOutOfPlaceOperation_sigmoid (env : Env) (n : Node)
    (hk : n.kind = "aten::sigmoid") :
    getOutOfPlaceOperation env n = aten_sigmoid env n := by
  simp [getOutOfPlaceOperation, Registry.Has, Registry.Create, SROperatorRegistry,
    REGISTER_OPERATOR_FUNCTOR, List.lookup, hk]

theorem getOutOfPlaceOperation_leaky_relu (env : Env) (n : Node)
    (hk : n.kind = "aten::leaky_relu") :
    getOutOfPlaceOperation env n = aten_leaky_relu env n := by
  simp [getOutOfPlaceOperation, Registry.Has, Registry.Create, SROperatorRegistry,
    REGISTER_OPERATOR_FUNCTOR, List.lookup, hk]

theorem getOutOfPlaceOperation_relu (env : Env) (n : Node)
    (hk : n.kind = "aten::relu") :
    getOutOfPlaceOperation env n = aten_relu env n := by
  simp [getOutOfPlaceOperation, Registry.Has, Registry.Create, SROperatorRegistry,
    REGISTER_OPERATOR_FUNCTOR, List.lookup, hk]

theorem getOutOfPlaceOperation_logit (env : Env) (n : Node)
    (hk : n.kind = "aten::logit") :
    getOutOfPlaceOperation env n = aten_logit env n := by
  simp [getOutOfPlaceOperation, Registry.Has, Registry.Create, SROperatorRegistry,
    REGISTER_OPERATOR_FUNCTOR, List.lookup, hk]

theorem getOutOfPlaceOperation_clone (env : Env) (n : Node)
    (hk : n.kind = "aten::clone") :
    getOutOfPlaceOperation env n = aten_clone env n := by
  simp [getOutOfPlaceOperation, Registry.Has, Registry.Create, SROperatorRegistry,
    REGISTER_OPERATOR_FUNCTOR, List.lookup, hk]

/-! ### The closures of the registry -/

set_option maxHeartbeats 4000000 in
/-- Each closure of the registry whose generator does not inspect the node
assigns output slot 0 only when the slot is empty. -/
theorem KeepsSlot_plain (env : Env) (n : Node) (op : SROperator)
    (g : Env → Node → Except Err SROperator)
    (hg : g ∈ [aten_add, aten_mul, aten_addmm, aten_clamp, aten_bmm, aten_nan_to_num,
      aten_cat, aten_tanh, aten_stack, aten_sigmoid, aten_relu, aten_logit, aten_clone])
    (h : g env n = .ok op) : KeepsSlot op := by
  simp only [List.mem_cons, List.mem_singleton, List.not_mem_nil, or_false] at hg
  rcases hg with rfl | rfl | rfl | rfl | rfl | rfl | rfl | rfl | rfl | rfl | rfl | rfl | rfl
  all_goals
    simp only [aten_add, aten_mul, aten_addmm, aten_clamp, aten_bmm, aten_nan_to_num,
      aten_cat, aten_tanh, aten_stack, aten_sigmoid, aten_relu, aten_logit, aten_clone,
      Except.ok.injEq] at h
    subst h
    repeat' first
      | exact KeepsSlot_invoke _ _ _
      | with_reducible refine KeepsSlot_guard _ _ ?_
      | with_reducible refine KeepsSlot_ite _ _ _ ?_ ?_
      | with_reducible refine KeepsSlot_bind _ _ ?_ (fun _ => ?_)
      | with_reducible refine Quiet_bind _ _ ?_ (fun _ => ?_)
      | with_reducible refine Quiet_ite _ _ _ ?_ ?_
      | exact Quiet_pure _
      | exact Quiet_get
      | exact Quiet_Input _
      | exact Quiet_Output _
      | exact Quiet_toTensor _
      | exact Quiet_toInt _
      | exact Quiet_toDouble _
      | exact Quiet_toScalar _
      | exact Quiet_toTensorVector _
      | exact Quiet_vecAt _ _
      | exact Quiet_create_empty_from _ _
      | exact Quiet_resize_ _ _
      | exact Quiet_deref _
      | exact Quiet_derefAll _
      | exact Quiet_ofLib _
      | exact Quiet_checkEntryShapes _ _
      | exact Quiet_unsqueezeAll _ _ _
      | exact Quiet_set_output _ _ _ _ _ _
      | refine KeepsSlot_of_Quiet _ ?_

/-- Both closures that the generator of `aten::leaky_relu` can return assign
output slot 0 only when the slot is empty. -/
theorem KeepsSlot_leaky_relu (env : Env) (n : Node) (op : SROperator)
    (h : aten_leaky_relu env n = .ok op) : KeepsSlot op := by
  unfold aten_leaky_relu at h
  split at h
  · cases h
  · split at h
    · split at h
      · cases h
      · cases h
        repeat' first
          | exact KeepsSlot_invoke _ _ _
          | with_reducible refine KeepsSlot_guard _ _ ?_
          | with_reducible refine KeepsSlot_ite _ _ _ ?_ ?_
          | with_reducible refine KeepsSlot_bind _ _ ?_ (fun _ => ?_)
          | with_reducible refine Quiet_bind _ _ ?_ (fun _ => ?_)
          | with_reducible refine Quiet_ite _ _ _ ?_ ?_
          | exact Quiet_pure _
          | exact Quiet_get
          | exact Quiet_Input _
          | exact Quiet_Output _
          | exact Quiet_toTensor _
          | exact Quiet_toInt _
          | exact Quiet_toDouble _
          | exact Quiet_toScalar _
          | exact Quiet_toTensorVector _
          | exact Quiet_vecAt _ _
          | exact Quiet_create_empty_from _ _
          | exact Quiet_resize_ _ _
          | exact Quiet_deref _
          | exact Quiet_derefAll _
          | exact Quiet_ofLib _
          | exact Quiet_checkEntryShapes _ _
          | exact Quiet_unsqueezeAll _ _ _
          | exact Quiet_set_output _ _ _ _ _ _
          | refine KeepsSlot_of_Quiet _ ?_
    · cases h
      repeat' first
        | exact KeepsSlot_invoke _ _ _
        | with_reducible refine KeepsSlot_guard _ _ ?_
        | with_reducible refine KeepsSlot_ite _ _ _ ?_ ?_
        | with_reducible refine KeepsSlot_bind _ _ ?_ (fun _ => ?_)
        | with_reducible refine Quiet_bind _ _ ?_ (fun _ => ?_)
        | with_reducible refine Quiet_ite _ _ _ ?_ ?_
        | exact Quiet_pure _
        | exact Quiet_get
        | exact Quiet_Input _
        | exact Quiet_Output _
        | exact Quiet_toTensor _
        | exact Quiet_toInt _
        | exact Quiet_toDouble _
        | exact Quiet_toScalar _
        | exact Quiet_toTensorVector _
        | exact Quiet_vecAt _ _
        | exact Quiet_create_empty_from _ _
        | exact Quiet_resize_ _ _
        | exact Quiet_deref _
        | exact Quiet_derefAll _
        | exact Quiet_ofLib _
        | exact Quiet_checkEntryShapes _ _
        | exact Quiet_unsqueezeAll _ _ _
        | exact Quiet_set_output _ _ _ _ _ _
        | refine KeepsSlot_of_Quiet _ ?_

/-! ### The reset of the output tensor before the kernel -/

theorem Silent_pure {α : Type} (a : α) : Silent (pure a : SR α) := fun _ => rfl
theorem Silent_SRpure {α : Type} (a : α) : Silent (SR.pure a) := fun _ => rfl
theorem Silent_fail {α : Type} (e : Err) : Silent (SR.fail e : SR α) := fun _ => rfl
theorem Silent_bind {α β : Type} (m : SR α) (f : α → SR β) (hm : Silent m)
    (hf : ∀ a, Silent (f a)) : Silent (m >>= f) := by
  intro s
  show (SR.bind m f s).2 = s
  unfold SR.bind
  have h1 := hm s
  rcases hms : m s with ⟨r, s1⟩
  rw [hms] at h1
  cases r with
  | error e => exact h1
  | ok a =>
    simp only at h1
    subst h1
    exact hf a s1

theorem Silent_Output (i : Nat) : Silent (Output i) := by
  intro s; unfold Output; split <;> rfl
theorem Silent_deref (t : Nat) : Silent (deref t) := by
  intro s; unfold deref; split <;> rfl
theorem Silent_derefAll (hs : List Nat) : Silent (derefAll hs) := by
  induction hs with
  | nil => exact Silent_SRpure _
  | cons h rest ih =>
    unfold derefAll
    exact Silent_bind _ _ (Silent_deref h) fun _ => Silent_bind _ _ ih fun _ => Silent_pure _

set_option maxHeartbeats 1000000 in
theorem nan_to_num_calls_empty (env : Env) (p : ProcessedNode) (h : Nat)
    (a : TensorImpl) (ds : List Double) (op : SROperator) (n : Node)
    (hop : aten_nan_to_num env n = .ok op)
    (hin : p.inputs = .tensor h :: ds.map .double) (hk : ds.length ≤ 3)
    (hheap : p.heap[h]? = some a) (ho : p.outputs[0]? = some .none) :
    (op p).2.calls = p.calls ++ [.nan_to_num_out ((env.lib.create_empty_from a).resize_ [0])
      a (nanToNumArgs ds).1 (nanToNumArgs ds).2.1 (nanToNumArgs ds).2.2] := by
  simp only [aten_nan_to_num, Except.ok.injEq] at hop
  subst hop
  have hlt := getElem?_lt_of_eq_some _ _ _ hheap
  have hne : ¬ p.heap.length = h := by omega
  have happ : ∀ x, (p.heap ++ [x])[h]? = some a := by
    intro x
    rw [List.getElem?_append_left hlt, hheap]
  have hol : 0 < p.outputs.length := getElem?_lt_of_eq_some _ _ _ ho
  rcases ds with _ | ⟨d1, _ | ⟨d2, _ | ⟨d3, _ | _⟩⟩⟩
  case cons.cons.cons.cons => simp at hk
  all_goals
    simp [run_bind, run_pure, SR.get, Input, Output, hin, toTensor_tensor,
      toDouble_double, SR.pure, ho, isNone_none, isNone_tensor, create_empty_from, deref,
      hheap, alloc, setOutput, hol, resize_, store, invoke_calls, List.getElem?_set, hlt,
      hne, happ, nanToNumArgs]

set_option maxHeartbeats 1000000 in
theorem nan_to_num_calls_tensor (env : Env) (p : ProcessedNode) (h : Nat)
    (a : TensorImpl) (ds : List Double) (op : SROperator) (n : Node) (oh : Nat)
    (ot : TensorImpl)
    (hop : aten_nan_to_num env n = .ok op)
    (hin : p.inputs = .tensor h :: ds.map .double) (hk : ds.length ≤ 3)
    (hheap : p.heap[h]? = some a) (ho : p.outputs[0]? = some (.tensor oh))
    (hoh : p.heap[oh]? = some ot) :
    (op p).2.calls = p.calls ++ [.nan_to_num_out (ot.resize_ [0])
      (if oh = h then ot.resize_ [0] else a)
      (nanToNumArgs ds).1 (nanToNumArgs ds).2.1 (nanToNumArgs ds).2.2] := by
  simp only [aten_nan_to_num, Except.ok.injEq] at hop
  subst hop
  have hlt := getElem?_lt_of_eq_some _ _ _ hheap
  have holt := getElem?_lt_of_eq_some _ _ _ hoh
  rcases ds with _ | ⟨d1, _ | ⟨d2, _ | ⟨d3, _ | _⟩⟩⟩
  case cons.cons.cons.cons => simp at hk
  all_goals
    by_cases hal : oh = h
    · subst hal
      simp [run_bind, run_pure, SR.get, Input, Output, hin, toTensor_tensor,
        toDouble_double, SR.pure, ho, isNone_none, isNone_tensor, deref,
        hheap, resize_, store, invoke_calls, List.getElem?_set, hlt, nanToNumArgs]
      simp_all
    · simp [run_bind, run_pure, SR.get, Input, Output, hin, toTensor_tensor,
        toDouble_double, SR.pure, ho, isNone_none, isNone_tensor, deref,
        hheap, hoh, resize_, store, invoke_calls, List.getElem?_set, hlt, holt, hal,
        nanToNumArgs]
      rw [List.getElem?_eq_getElem hlt] at hheap
      exact Option.some.inj hheap

/-- C4, evaluated: with three output slots, a sequence of length 3 populates
the three slots in order, and a sequence of length 2 fails. -/
theorem C4_listUnpack_witness :
    getNativeOperation (Env.reference true) (Node.ofKind "prim::ListUnpack" 1 3)
        (listUnpackExample [.int 7, .int 8, .int 9])
      = (.ok (), { listUnpackExample [.int 7, .int 8, .int 9] with
                    outputs := [.int 7, .int 8, .int 9] }) ∧
    getNativeOperation (Env.reference true) (Node.ofKind "prim::ListUnpack" 1 3)
        (listUnpackExample [.int 7, .int 8])
      = (.error (.lengthMismatch 3 2), listUnpackExample [.int 7, .int 8]) :=
  ⟨((C4_listUnpack (Env.reference true) (Node.ofKind "prim::ListUnpack" 1 3)
      (listUnpackExample [.int 7, .int 8, .int 9]) [.int 7, .int 8, .int 9] 3
      rfl rfl rfl).1 rfl).1,
   (C4_listUnpack (Env.reference true) (Node.ofKind "prim::ListUnpack" 1 3)
      (listUnpackExample [.int 7, .int 8]) [.int 7, .int 8] 3
      rfl rfl rfl).2 (by decide)⟩

/-- C8: for every registered out-of-place closure and every run context: when
output slot 0 is not empty at the start the closure assigns no output slot,
so a slot that holds a tensor holds the same tensor object afterwards; the
output slots change only when slot 0 was empty at the start. -/
theorem C8_output_slot_kept (env : Env) (n : Node) (op : SROperator)
    (p : ProcessedNode) (hreg : Registry.Has env n.kind = true)
    (hop : getOutOfPlaceOperation env n = .ok op) :
    (p.outputs[0]? ≠ some .none → (op p).2.outputs = p.outputs) ∧
    (∀ h, p.outputs[0]? = some (.tensor h) → (op p).2.outputs[0]? = some (.tensor h)) ∧
    ((op p).2.outputs ≠ p.outputs → p.outputs[0]? = some .none) := by
  have hk : KeepsSlot op := by
    have hmem := (Registry.Has_iff env n.kind).1 hreg
    simp only [registeredNames, List.mem_cons, List.mem_singleton, List.not_mem_nil,
      or_false] at hmem
    rcases hmem with h | h | h | h | h | h | h | h | h | h | h | h | h | h
    · rw [getOutOfPlaceOperation_add env n h] at hop
      exact KeepsSlot_plain env n op aten_add (by simp) hop
    · rw [getOutOfPlaceOperation_mul env n h] at hop
      exact KeepsSlot_plain env n op aten_mul (by simp) hop
    · rw [getOutOfPlaceOperation_addmm env n h] at hop
      exact KeepsSlot_plain env n op aten_addmm (by simp) hop
    · rw [getOutOfPlaceOperation_clamp env n h] at hop
      exact KeepsSlot_plain env n op aten_clamp (by simp) hop
    · rw [getOutOfPlaceOperation_bmm env n h] at hop
      exact KeepsSlot_plain env n op aten_bmm (by simp) hop
    · rw [getOutOfPlaceOperation_nan_to_num env n h] at hop
      exact KeepsSlot_plain env n op aten_nan_to_num (by simp) hop
    · rw [getOutOfPlaceOperation_cat env n h] at hop
      exact KeepsSlot_plain env n op aten_cat (by simp) hop
    · rw [getOutOfPlaceOperation_tanh env n h] at hop
      exact KeepsSlot_plain env n op aten_tanh (by simp) hop
    · rw [getOutOfPlaceOperation_stack env n h] at hop
      exact KeepsSlot_plain env n op aten_stack (by simp) hop
    · rw [getOutOfPlaceOperation_sigmoid env n h] at hop
      exact KeepsSlot_plain env n op aten_sigmoid (by simp) hop
    · rw [getOutOfPlaceOperation_leaky_relu env n h] at hop
      exact KeepsSlot_leaky_relu env n op hop
    · rw [getOutOfPlaceOperation_relu env n h] at hop
      exact KeepsSlot_plain env n op aten_relu (by simp) hop
    · rw [getOutOfPlaceOperation_logit env n h] at hop
      exact KeepsSlot_plain env n op aten_logit (by simp) hop
    · rw [getOutOfPlaceOperation_clone env n h] at hop
      exact KeepsSlot_plain env n op aten_clone (by simp) hop
  refine ⟨hk p, ?_, ?_⟩
  · intro h hh
    rw [hk p (by rw [hh]; simp), hh]
  · intro hne
    by_contra hc
    exact hne (hk p hc)

/-- C8, evaluated: the closure of `aten::clone`, run on an output slot that
holds the tensor with handle 2, leaves the handle 2 in the slot, while the
tensor object behind it takes a new state. -/
theorem C8_output_slot_kept_witness :
    ∃ op, getOutOfPlaceOperation (Env.reference false) (Node.ofKind "aten::clone" 1 1)
        = .ok op ∧
      (op (outOfPlaceExample "aten::clone" [.tensor 0] (.tensor 2))).2.outputs
        = [.tensor 2] :=
  ⟨_, rfl,
    (C8_output_slot_kept (Env.reference false) (Node.ofKind "aten::clone" 1 1) _
      (outOfPlaceExample "aten::clone" [.tensor 0] (.tensor 2)) (by decide) rfl).1
      (by simp [outOfPlaceExample, ProcessedNode.initial])⟩

/-- C9: for an `aten::nan_to_num` run context whose inputs are the source
tensor followed by `k - 1 <= 3` doubles `ds`, and whose output slot 0 is empty
or holds a tensor, the closure invokes the kernel `nan_to_num_out` exactly
once, with the NaN replacement `ds[0]` when present and `0` otherwise, the
positive-infinity replacement `ds[1]` when present and `+infinity` otherwise,
and the negative-infinity replacement `ds[2]` when present and `-infinity`
otherwise. -/
theorem C9_nan_to_num_arguments (env : Env) (n : Node) (p : ProcessedNode) (h : Nat)
    (a : TensorImpl) (ds : List Double)
    (hkind : n.kind = "aten::nan_to_num")
    (hin : p.inputs = .tensor h :: ds.map .double) (hk : ds.length ≤ 3)
    (hheap : p.heap[h]? = some a) (hout : outputReady p) :
    ∃ op, getOutOfPlaceOperation env n = .ok op ∧ ∃ o a1,
      (op p).2.calls = p.calls ++
        [.nan_to_num_out o a1 (ds[0]?.getD Double.zero) (ds[1]?.getD Double.infinity)
          (ds[2]?.getD Double.negInfinity)] := by
  rw [getOutOfPlaceOperation_nan_to_num env n hkind]
  refine ⟨_, rfl, ?_⟩
  rcases hout with ho | ⟨oh, ot, ho, hoh⟩
  · exact ⟨_, _, nan_to_num_calls_empty env p h a ds _ n rfl hin hk hheap ho⟩
  · exact ⟨_, _, nan_to_num_calls_tensor env p h a ds _ n oh ot rfl hin hk hheap ho hoh⟩

/-- C9, evaluated: given only the source tensor, the kernel is invoked with
the replacements `0`, `+infinity` and `-infinity`; given one more input, with
that input as the NaN replacement. -/
theorem C9_nan_to_num_arguments_witness :
    (∃ op, getOutOfPlaceOperation (Env.reference false)
        (Node.ofKind "aten::nan_to_num" 1 1) = .ok op ∧ ∃ o a1,
      (op (outOfPlaceExample "aten::nan_to_num" [.tensor 0] .none)).2.calls =
        [] ++ [.nan_to_num_out o a1 Double.zero Double.infinity Double.negInfinity]) ∧
    (∃ op, getOutOfPlaceOperation (Env.reference false)
        (Node.ofKind "aten::nan_to_num" 2 1) = .ok op ∧ ∃ o a1,
      (op (outOfPlaceExample "aten::nan_to_num" [.tensor 0, .double Double.negOne]
        (.tensor 2))).2.calls =
        [] ++ [.nan_to_num_out o a1 Double.negOne Double.infinity Double.negInfinity]) :=
  ⟨C9_nan_to_num_arguments (Env.reference false) (Node.ofKind "aten::nan_to_num" 1 1)
      (outOfPlaceExample "aten::nan_to_num" [.tensor 0] .none) 0
      (TensorImpl.ofShape [2, 3]) [] rfl rfl (by decide) rfl (Or.inl rfl),
   C9_nan_to_num_arguments (Env.reference false) (Node.ofKind "aten::nan_to_num" 2 1)
      (outOfPlaceExample "aten::nan_to_num" [.tensor 0, .double Double.negOne]
        (.tensor 2)) 0
      (TensorImpl.ofShape [2, 3]) [Double.negOne] rfl rfl (by decide) rfl
      (Or.inr ⟨2, TensorImpl.ofShape [2, 3], rfl, rfl⟩)⟩

end StaticRuntime
